import Mathlib

/-!
Verification development for the move2notion repository.

This file gives a shallow embedding of the OneNote-HTML → Notion-block
conversion pipeline (src/tools/onenote_migration/html_parser.py,
content_mapper.py, resource_handler.py, cli.py, src/core/state_manager.py and
the v0.8.4 one-file converter) and proves or refutes the frozen claims about
it.

Modelling conventions:
* Python strings are modelled by `String`; all length/slicing/stripping
  operations are defined over `String.toList` so that they mirror Python's
  code-point semantics and evaluate inside the kernel.
* The parsed HTML DOM (BeautifulSoup) is modelled by the tree type `HNode`;
  element nodes carry a numeric `oid` standing for Python object identity
  (`id(el)`), which the converter uses to de-duplicate image processing.
  Distinct parsed elements always have distinct `oid`s.
* Network effects (requests.get / Notion uploads) are modelled by function
  parameters bundled in `Network`; every call is logged in an explicit state
  record so that call counts are observable.
-/

namespace Move2Notion

/-- Python `str.strip()` over the character list (default whitespace strip). -/
def pyStripList (l : List Char) : List Char :=
  ((l.dropWhile Char.isWhitespace).reverse.dropWhile Char.isWhitespace).reverse

/-- Python `str.strip()`. -/
def pyStrip (s : String) : String := String.mk (pyStripList s.toList)

/-- Python `str.lower()` (ASCII case folding; the repository only lowercases
ASCII tag/attribute/style text in the places the claims touch). -/
def lowerStr (s : String) : String := String.mk (s.toList.map Char.toLower)

/-- `needle` occurs as a contiguous sublist of `hay`. -/
def listHasInfix (needle : List Char) : List Char → Bool
  | [] => needle.isEmpty
  | c :: t => needle.isPrefixOf (c :: t) || listHasInfix needle t

/-- Python `needle in hay` substring containment. -/
def containsStr (hay needle : String) : Bool :=
  listHasInfix needle.toList hay.toList

/-- Python `s.startswith(p)`. -/
def startsWithStr (s p : String) : Bool := p.toList.isPrefixOf s.toList

/-- Python `len(s)` (code points). -/
def strLen (s : String) : Nat := s.toList.length

/-- Python `s[:n]` (code points). -/
def strTake (s : String) (n : Nat) : String := String.mk (s.toList.take n)

/-- Python `s[n:]` (code points). -/
def strDrop (s : String) (n : Nat) : String := String.mk (s.toList.drop n)

/-- Python `str.replace(pat, rep)` on character lists: non-overlapping,
left-to-right, the replacement is not rescanned. The fuel argument (one unit
per consumed input character) only makes the recursion structural; starting
it at the input length never exhausts it. -/
def replaceListFuel (pat rep : List Char) : Nat → List Char → List Char
  | 0, l => l
  | _ + 1, [] => []
  | fuel + 1, c :: t =>
    if pat ≠ [] ∧ pat.isPrefixOf (c :: t) then
      rep ++ replaceListFuel pat rep fuel ((c :: t).drop pat.length)
    else
      c :: replaceListFuel pat rep fuel t

def replaceList (pat rep l : List Char) : List Char :=
  replaceListFuel pat rep l.length l

/-- Python `s.replace(pat, rep)`. -/
def replaceStr (s pat rep : String) : String :=
  String.mk (replaceList pat.toList rep.toList s.toList)

/-- Python `sep.join(parts)`. -/
def joinSep (sep : String) : List String → String
  | [] => ""
  | [s] => s
  | s :: rest => s ++ sep ++ joinSep sep rest

/-- Python `''.join(parts)`. -/
def joinAll (l : List String) : String := joinSep "" l

/-- Python `s.startswith(tupleOfStrings)`. -/
def startsWithAny (s : String) (cs : List String) : Bool :=
  cs.any (fun c => startsWithStr s c)

/-- Strip leading/trailing `\x7b` / `\x7d` brace characters,
Python `s.strip("\x7b\x7d")`. -/
def isBraceChar (c : Char) : Bool := c = '\x7b' || c = '\x7d'

def stripBraces (s : String) : String :=
  String.mk (((s.toList.dropWhile isBraceChar).reverse.dropWhile isBraceChar).reverse)

/-! ## Rich-text annotations (html_parser.build_rich_text) -/

/-- The five Notion annotation flags tracked by `build_rich_text`. -/
structure Annotations where
  bold : Bool
  italic : Bool
  strikethrough : Bool
  underline : Bool
  code : Bool
deriving DecidableEq, Repr

/-- The all-false annotation record the walker starts from. -/
def noAnn : Annotations := ⟨false, false, false, false, false⟩

/-- `parse_style_annotations` (html_parser.py lines 191-222): extract
formatting flags from a CSS style string. `code` is never set from styles. -/
def parse_style_annotations (styleStr : String) : Annotations :=
  if styleStr = "" then noAnn
  else
    let sl := lowerStr styleStr
    { bold := containsStr sl "font-weight:bold" ||
        (["700", "800", "900"].any (fun w => containsStr sl ("font-weight:" ++ w)))
      italic := containsStr sl "font-style:italic"
      underline := containsStr sl "text-decoration:underline"
      strikethrough := containsStr sl "text-decoration:line-through"
      code := false }

/-- The OR-merge of style annotations into the inherited set
(html_parser.py lines 258-261). -/
def mergeAnn (a b : Annotations) : Annotations :=
  ⟨a.bold || b.bold, a.italic || b.italic, a.strikethrough || b.strikethrough,
   a.underline || b.underline, a.code || b.code⟩

/-! ## OneNote link helpers (html_parser.py lines 17-63) -/

/-- Marker appended to the display text of unresolved internal links. -/
def INCOMPLETE_LINK_MARKER : String := " (Verlinkung unvollständig)"

/-- `is_onenote_internal_link` (html_parser.py lines 20-29). -/
def is_onenote_internal_link (href : String) : Bool :=
  if href = "" then false
  else
    startsWithStr href "onenote:" ||
    containsStr (lowerStr href) "page-id=" ||
    containsStr (lowerStr href) "&section-id=" ||
    containsStr (lowerStr href) "onenote/pages/"

/-- `process_onenote_link` (html_parser.py lines 51-63). -/
def process_onenote_link (href : String) : String × String :=
  if is_onenote_internal_link href then (href, INCOMPLETE_LINK_MARKER)
  else (href, "")

/-- Case-insensitive prefix test: `pat` is given lowercase. -/
def ciHasPre (pat : List Char) (s : List Char) : Bool :=
  pat.isPrefixOf (s.map Char.toLower)

/-- `[a-f0-9-]` with `re.IGNORECASE`. -/
def hexDashChar (c : Char) : Bool :=
  ('a'.toNat ≤ c.toNat && c.toNat ≤ 'f'.toNat) ||
  ('A'.toNat ≤ c.toNat && c.toNat ≤ 'F'.toNat) ||
  ('0'.toNat ≤ c.toNat && c.toNat ≤ '9'.toNat) || c = '-'

/-- Leftmost match of `page-id=\x7b?([a-f0-9-]+)\x7d?` (IGNORECASE); returns
the captured group. -/
def scanPat1 : List Char → Option (List Char)
  | [] => none
  | c :: t =>
    if ciHasPre "page-id=".toList (c :: t) then
      let rest := (c :: t).drop 8
      let rest2 := match rest with
        | '\x7b' :: r => r
        | r => r
      let run := rest2.takeWhile hexDashChar
      if run ≠ [] then some run else scanPat1 t
    else scanPat1 t

/-- Leftmost match of `page-id=([^&]+)` (IGNORECASE); returns the capture. -/
def scanPat2 : List Char → Option (List Char)
  | [] => none
  | c :: t =>
    if ciHasPre "page-id=".toList (c :: t) then
      let run := ((c :: t).drop 8).takeWhile (fun ch => ch ≠ '&')
      if run ≠ [] then some run else scanPat2 t
    else scanPat2 t

/-- Leftmost match of `/pages/([^/?\s]+)` (IGNORECASE); returns the capture. -/
def scanPat3 : List Char → Option (List Char)
  | [] => none
  | c :: t =>
    if ciHasPre "/pages/".toList (c :: t) then
      let run := ((c :: t).drop 7).takeWhile
        (fun ch => ch ≠ '/' && ch ≠ '?' && !ch.isWhitespace)
      if run ≠ [] then some run else scanPat3 t
    else scanPat3 t

/-- `extract_page_id_from_link` (html_parser.py lines 32-48): try the three
patterns in order, strip braces from the first successful capture. -/
def extract_page_id_from_link (href : String) : Option String :=
  if href = "" then none
  else
    match scanPat1 href.toList with
    | some run => some (stripBraces (String.mk run))
    | none =>
      match scanPat2 href.toList with
      | some run => some (stripBraces (String.mk run))
      | none =>
        match scanPat3 href.toList with
        | some run => some (stripBraces (String.mk run))
        | none => none

/-! ## The parsed DOM (BeautifulSoup tree) -/

/-- A parsed HTML node. `text` models `NavigableString`; `elem` models `Tag`
with its (lowercased-at-parse-time) tag name, attribute map and children.
`oid` stands for Python object identity `id(el)`: distinct parsed elements
always carry distinct `oid`s. -/
inductive HNode where
  | text (s : String)
  | elem (oid : Nat) (tag : String) (attrs : List (String × String)) (children : List HNode)
deriving Repr

/-- `el.get(name)` attribute lookup. -/
def getAttr (attrs : List (String × String)) (name : String) : Option String :=
  (attrs.find? (fun p => p.1 == name)).map (fun p => p.2)

/-- `el.has_attr(name)`. -/
def hasAttrIn (attrs : List (String × String)) (name : String) : Bool :=
  (getAttr attrs name).isSome

def HNode.attrsOf : HNode → List (String × String)
  | .text _ => []
  | .elem _ _ a _ => a

def HNode.childrenOf : HNode → List HNode
  | .text _ => []
  | .elem _ _ _ cs => cs

def HNode.oidOf : HNode → Nat
  | .text _ => 0
  | .elem i _ _ _ => i

/-- Is this an element node with the given tag name? -/
def isElemWithTag (tag : String) : HNode → Bool
  | .text _ => false
  | .elem _ t _ _ => t == tag

mutual
/-- All descendant strings of a node in document order
(BeautifulSoup `_all_strings`). -/
def textStrings : HNode → List String
  | .text s => [s]
  | .elem _ _ _ cs => textStringsList cs

def textStringsList : List HNode → List String
  | [] => []
  | c :: cs => textStrings c ++ textStringsList cs
end

/-- `el.get_text()`: concatenation of all descendant strings. -/
def get_text (n : HNode) : String := joinAll (textStrings n)

/-- `el.get_text(sep, strip=True)`: strip each string, drop empties, join. -/
def get_text_strip (sep : String) (n : HNode) : String :=
  joinSep sep (((textStrings n).map pyStrip).filter (fun s => s != ""))

/-- Same over a whole forest (for `soup.get_text`). -/
def forest_text_strip (sep : String) (ns : List HNode) : String :=
  joinSep sep (((textStringsList ns).map pyStrip).filter (fun s => s != ""))

mutual
/-- All descendants of a node in document (pre-)order, excluding the node
itself (BeautifulSoup `descendants`). -/
def descN : HNode → List HNode
  | .text _ => []
  | .elem _ _ _ cs => descL cs

def descL : List HNode → List HNode
  | [] => []
  | c :: cs => c :: descN c ++ descL cs
end

/-- BeautifulSoup `el.find(...)`: first descendant matching the predicate. -/
def findDesc (n : HNode) (p : HNode → Bool) : Option HNode :=
  (descN n).find? p

/-- `el.find([tags], recursive=False)`: first direct child with one of the
given tag names. -/
def findDirectChild (cs : List HNode) (tags : List String) : Option HNode :=
  cs.find? (fun c =>
    match c with
    | .text _ => false
    | .elem _ t _ _ => tags.contains t)

/-! ## build_rich_text (html_parser.py lines 182-323) -/

/-- An entry of the `parts` accumulator in `build_rich_text`: the dict
`{"type": "text", "text": {"content", "link"?}, "annotations"}` before the
all-false annotation records are deleted. -/
structure Part where
  content : String
  link : Option String
  annotations : Annotations
deriving DecidableEq, Repr

/-- A final Notion rich-text span; `annotations = none` models the deleted
annotations key (all flags false). -/
structure RichSpan where
  content : String
  link : Option String
  annotations : Option Annotations
deriving DecidableEq, Repr

mutual
/-- `process_node` of `build_rich_text` (html_parser.py lines 224-303):
recursive DOM walk threading the inherited annotation record. -/
def processNode (ex : Bool) (ann : Annotations) : HNode → List Part
  | .text s => if s = "" then [] else [⟨s, none, ann⟩]
  | .elem _ tag attrs cs =>
    let tagName := lowerStr tag
    if ex && (tagName == "ul" || tagName == "ol") then []
    else
      let a1 :=
        match getAttr attrs "style" with
        | some st => if st = "" then ann else mergeAnn ann (parse_style_annotations st)
        | none => ann
      let a2 :=
        if tagName == "strong" || tagName == "b" then { a1 with bold := true }
        else if tagName == "em" || tagName == "i" then { a1 with italic := true }
        else if tagName == "u" then { a1 with underline := true }
        else if tagName == "strike" || tagName == "s" || tagName == "del" then
          { a1 with strikethrough := true }
        else if tagName == "code" then { a1 with code := true }
        else a1
      if tagName == "a" then
        match getAttr attrs "href" with
        | some href =>
          if href ≠ "" then
            let txt := joinAll (textStringsList cs)
            if txt ≠ "" then
              let url := (process_onenote_link href).1
              let sfx := (process_onenote_link href).2
              [⟨txt ++ sfx, some url, a2⟩]
            else []
          else processNodeList ex a2 cs
        | none => processNodeList ex a2 cs
      else processNodeList ex a2 cs

def processNodeList (ex : Bool) (ann : Annotations) : List HNode → List Part
  | [] => []
  | c :: cs => processNode ex ann c ++ processNodeList ex ann cs
end

/-- The Notion per-span character limit applied at html_parser.py
lines 311-314: spans longer than 2000 code points are TRUNCATED to their
first 2000 characters. -/
def truncatePart (p : Part) : Part :=
  if strLen p.content > 2000 then { p with content := strTake p.content 2000 } else p

/-- `build_rich_text(node, exclude_nested_lists)` (html_parser.py lines
182-323): walk, drop whitespace-only parts, truncate to 2000 chars, delete
all-false annotation records, and fall back to a single empty span. -/
def build_rich_text (node : HNode) (excludeNestedLists : Bool := false) : List RichSpan :=
  let parts := processNode excludeNestedLists noAnn node
  let parts := parts.filter (fun p => pyStrip p.content != "")
  let parts := parts.map truncatePart
  let spans := parts.map (fun p =>
    RichSpan.mk p.content p.link (if p.annotations = noAnn then none else some p.annotations))
  match spans with
  | [] => [⟨"", none, none⟩]
  | l => l

/-! ## Notion blocks -/

/-- A Notion block as built by the converter. The single constructor models
the block dict; unused fields of a given block type keep their defaults
(modelling absent dict keys). `children` models the nested `children` list of
list-item / to-do / table blocks. -/
inductive Block where
  | mk (btype : String) (rich : List RichSpan) (checked : Bool)
      (children : List Block) (uploadId : String) (tableWidth : Nat)
      (hasColHeader : Bool) (cells : List (List RichSpan)) (language : String)
deriving Repr

def Block.btype : Block → String
  | .mk t _ _ _ _ _ _ _ _ => t

def Block.rich : Block → List RichSpan
  | .mk _ r _ _ _ _ _ _ _ => r

def Block.checked : Block → Bool
  | .mk _ _ c _ _ _ _ _ _ => c

def Block.children : Block → List Block
  | .mk _ _ _ ch _ _ _ _ _ => ch

def Block.uploadId : Block → String
  | .mk _ _ _ _ u _ _ _ _ => u

def Block.tableWidth : Block → Nat
  | .mk _ _ _ _ _ w _ _ _ => w

def Block.hasColHeader : Block → Bool
  | .mk _ _ _ _ _ _ h _ _ => h

def Block.cells : Block → List (List RichSpan)
  | .mk _ _ _ _ _ _ _ c _ => c

def Block.language : Block → String
  | .mk _ _ _ _ _ _ _ _ l => l

/-- Paragraph block. -/
def paragraphBlock (rich : List RichSpan) : Block :=
  .mk "paragraph" rich false [] "" 0 false [] ""

/-- `heading_<level>` block. -/
def headingBlock (level : Nat) (rich : List RichSpan) : Block :=
  .mk ("heading_" ++ toString level) rich false [] "" 0 false [] ""

/-- Quote block. -/
def quoteBlock (rich : List RichSpan) : Block :=
  .mk "quote" rich false [] "" 0 false [] ""

/-- Code block with `plain_text` language and a single bare span. -/
def codeBlock (text : String) : Block :=
  .mk "code" [⟨text, none, none⟩] false [] "" 0 false [] "plain_text"

/-- To-do block. -/
def todoBlock (rich : List RichSpan) (checked : Bool) (children : List Block) : Block :=
  .mk "to_do" rich checked children "" 0 false [] ""

/-- Bulleted/numbered list-item block. -/
def listItemBlock (btype : String) (rich : List RichSpan) (children : List Block) : Block :=
  .mk btype rich false children "" 0 false [] ""

/-- Image block from an upload id (`notion_client.create_image_block`). -/
def imageBlock (uploadId : String) : Block :=
  .mk "image" [] false [] uploadId 0 false [] ""

/-- File block from an upload id (`notion_client.create_file_block`). -/
def fileBlock (uploadId : String) : Block :=
  .mk "file" [] false [] uploadId 0 false [] ""

/-- `table_row` block. -/
def tableRowBlock (cells : List (List RichSpan)) : Block :=
  .mk "table_row" [] false [] "" 0 false cells ""

/-- `table` block carrying its row children. -/
def tableBlock (width : Nat) (hasColHeader : Bool) (rows : List Block) : Block :=
  .mk "table" [] false rows "" width hasColHeader [] ""

/-! ## To-do detection (html_parser.process_list_recursive lines 101-136) -/

/-- Checked-checkbox unicode glyphs (html_parser.py line 70). -/
def checkboxUnicodeTrue : List String := ["☑", "✅", "✓", "✔"]

/-- Unchecked-checkbox unicode glyphs (html_parser.py line 71). -/
def checkboxUnicodeFalse : List String := ["☐", "⬜", "☒", "◻"]

/-- `re.match(r"^\s*\[(x|X)\]\s+", text)`. -/
def matchMarkdownChecked (s : String) : Bool :=
  match s.toList.dropWhile Char.isWhitespace with
  | '[' :: x :: ']' :: w :: _ => (x == 'x' || x == 'X') && w.isWhitespace
  | _ => false

/-- `re.match(r"^\s*\[\s\]\s+", text)`. -/
def matchMarkdownUnchecked (s : String) : Bool :=
  match s.toList.dropWhile Char.isWhitespace with
  | '[' :: sp :: ']' :: w :: _ => sp.isWhitespace && w.isWhitespace
  | _ => false

/-- `li.find("input", {"type": "checkbox"})`. -/
def findCheckbox (li : HNode) : Option HNode :=
  findDesc li (fun c =>
    match c with
    | .elem _ t attrs _ => t == "input" && (getAttr attrs "type" == some "checkbox")
    | _ => false)

/-- `li.find("img")`. -/
def findImg (li : HNode) : Option HNode :=
  findDesc li (isElemWithTag "img")

/-- `li.get("data-tag") and "to-do" in li.get("data-tag", "").lower()`. -/
def dataTagTodo (n : HNode) : Bool :=
  match getAttr n.attrsOf "data-tag" with
  | some v => v != "" && containsStr (lowerStr v) "to-do"
  | none => false

/-- The unicode / markdown checkbox fallback signals
(html_parser.py lines 122-136). -/
def unicodeTodo (li : HNode) (cuTrue cuFalse : List String) : Bool × Bool :=
  let text := get_text_strip " " li
  if startsWithAny text cuTrue then (true, true)
  else if startsWithAny text cuFalse then (true, false)
  else if matchMarkdownChecked text then (true, true)
  else if matchMarkdownUnchecked text then (true, false)
  else (false, false)

/-- The full to-do detection chain of `process_list_recursive`
(html_parser.py lines 101-136), evaluated in source order with
short-circuiting: checkbox input, then `data-tag`, then image alt text, then
unicode/markdown prefixes. Returns `(is_todo, checked)`. -/
def detectTodo (li : HNode) (cuTrue cuFalse : List String) : Bool × Bool :=
  match findCheckbox li with
  | some cb => (true, hasAttrIn cb.attrsOf "checked")
  | none =>
    if dataTagTodo li then (true, false)
    else
      match findImg li with
      | some img =>
        let alt := lowerStr ((getAttr img.attrsOf "alt").getD "")
        if ["to do", "todo", "checked", "unchecked"].any (fun x => containsStr alt x) then
          (true, containsStr alt "check")
        else unicodeTodo li cuTrue cuFalse
      | none => unicodeTodo li cuTrue cuFalse

/-! ## Document conversion effects (html_to_blocks_and_tables) -/

/-- The result of a successful resource fetch: the bytes (as a string
stand-in), the detected content type and the safe filename, i.e. the output
of `requests.get` + `detect_content_type_and_filename`. An empty `data`
models empty response bytes (falsy in Python). -/
structure FetchResult where
  data : String
  ctype : String
  fname : String
deriving DecidableEq, Repr

/-- The external collaborators of `html_to_blocks_and_tables`:
`fetchFn` models the authenticated `requests.get` (plus content-type
detection) and returns `none` on any exception; `uploadFn` models
`notion_client.upload_file(fname, data, ctype)` returning the upload id. -/
structure Network where
  fetchFn : String → Option FetchResult
  uploadFn : String → String → String → Option String

/-- The mutable accumulators of one `html_to_blocks_and_tables` run, plus
logs of every fetch and upload call so that call counts are observable. -/
structure ConvState where
  blocks : List Block
  tables : List (List (List String))
  processedImgs : List Nat
  fetchLog : List String
  uploadLog : List String
deriving Repr

def ConvState.initial : ConvState := ⟨[], [], [], [], []⟩

/-- Capture after `/onenote/resources/` up to the given stop characters
(the regex captures `([^/$?]+)` resp. `([^/?]+)`). -/
def resourceIdAfter (stops : List Char) : List Char → Option (List Char)
  | [] => none
  | c :: t =>
    if "/onenote/resources/".toList.isPrefixOf (c :: t) then
      let run := ((c :: t).drop 19).takeWhile (fun ch => !(stops.contains ch))
      if run ≠ [] then some run else resourceIdAfter stops t
    else resourceIdAfter stops t

/-- `rewrite_resource_url_to_graph` (html_parser.py lines 390-421). -/
def rewrite_resource_url_to_graph (siteId href : String) : Option String :=
  if startsWithStr href "https://graph.microsoft.com/" &&
      containsStr href "/siteCollections/" then
    match resourceIdAfter ['/', '$', '?'] href.toList with
    | some rid =>
      some ("https://graph.microsoft.com/v1.0/sites/" ++ siteId ++
        "/onenote/resources/" ++ String.mk rid ++ "/content")
    | none => none
  else if startsWithStr href "https://graph.microsoft.com/" &&
      containsStr href "/sites/" then
    if containsStr href "/onenote/resources/" then some href else none
  else
    match resourceIdAfter ['/', '?'] href.toList with
    | some rid =>
      some ("https://graph.microsoft.com/v1.0/sites/" ++ siteId ++
        "/onenote/resources/" ++ String.mk rid ++ "/content")
    | none => none

/-- `fetch_resource` (html_parser.py lines 423-452): rewrite OneNote resource
URLs, then perform the authenticated GET; the call is logged. An empty URL
returns immediately without a network call. -/
def fetch_resource (net : Network) (siteId url : String) (st : ConvState) :
    Option FetchResult × ConvState :=
  if url = "" then (none, st)
  else
    let url2 :=
      if containsStr url "/onenote/resources/" then
        match rewrite_resource_url_to_graph siteId url with
        | some fixed => fixed
        | none => url
      else url
    (net.fetchFn url2, { st with fetchLog := st.fetchLog ++ [url2] })

/-- One upload call through `notion_client.upload_file`; logged. -/
def uploadCall (net : Network) (fname data ctype : String) (st : ConvState) :
    Option String × ConvState :=
  (net.uploadFn fname data ctype, { st with uploadLog := st.uploadLog ++ [fname] })

/-- The shared fetch→upload→append-image-block sequence used by
`handle_images_with_split` and the direct `<img>` branch
(html_parser.py lines 515-526, 542-553, 653-664). -/
def processImageSrc (net : Network) (siteId src : String) (st : ConvState) : ConvState :=
  let r := fetch_resource net siteId src st
  match r.1 with
  | some fr =>
    if fr.data ≠ "" then
      let u := uploadCall net fr.fname fr.data fr.ctype r.2
      match u.1 with
      | some uid =>
        if uid ≠ "" then { u.2 with blocks := u.2.blocks ++ [imageBlock uid] }
        else u.2
      | none => u.2
    else r.2
  | none => r.2

/-- `child.get("data-fullres-src") or child.get("data-src") or
child.get("src")` with Python `or` falsiness for empty strings. -/
def orAttr (a b : Option String) : Option String :=
  match a with
  | some s => if s = "" then b else some s
  | none => b

def imgSrc (attrs : List (String × String)) : Option String :=
  match orAttr (getAttr attrs "data-fullres-src")
      (orAttr (getAttr attrs "data-src") (getAttr attrs "src")) with
  | some "" => none
  | o => o

mutual
/-- `str(node)` HTML re-serialization (used by `handle_images_with_split` to
join collected text children; entity escaping is not modelled). -/
def renderNode : HNode → String
  | .text s => s
  | .elem _ tag attrs cs =>
    "<" ++ tag ++ joinAll (attrs.map (fun p => " " ++ p.1 ++ "=\"" ++ p.2 ++ "\"")) ++
      ">" ++ renderList cs ++ "</" ++ tag ++ ">"

def renderList : List HNode → String
  | [] => ""
  | c :: cs => renderNode c ++ renderList cs
end

/-- Drop leading whitespace from the front of a node run (the effect of
Python's `.strip()` on the serialized text before it is re-parsed). -/
def lstripRun : List HNode → List HNode
  | [] => []
  | .text s :: rest =>
    let s2 := String.mk (s.toList.dropWhile Char.isWhitespace)
    if s2 = "" then lstripRun rest else .text s2 :: rest
  | l => l

def rstripStr (s : String) : String :=
  String.mk ((s.toList.reverse.dropWhile Char.isWhitespace).reverse)

/-- As `lstripRun` but on a reversed run, trimming string tails. -/
def rstripRunRev : List HNode → List HNode
  | [] => []
  | .text s :: rest =>
    let s2 := rstripStr s
    if s2 = "" then rstripRunRev rest else .text s2 :: rest
  | l => l

/-- The collected text children of `handle_images_with_split`, as they come
back from `BeautifulSoup(f"<span>…</span>").span` after serialization and
`.strip()`: the run with its boundary whitespace removed. -/
def stripRun (l : List HNode) : List HNode :=
  (rstripRunRev (lstripRun l).reverse).reverse

/-! ## handle_images_with_split (html_parser.py lines 454-555) -/

/-- An entry of the `parts` list of `handle_images_with_split`:
`('text', rich_text)` or `('image', src)`. -/
inductive SplitPart where
  | textPart (rich : List RichSpan)
  | imagePart (src : String)
deriving Repr

/-- Flush the collected text children: serialize, strip, and (if non-empty)
re-parse into a `<span>` wrapper passed to `build_rich_text`
(html_parser.py lines 480-485 / 500-504). -/
def flushText (acc : List HNode) (parts : List SplitPart) : List SplitPart :=
  if acc.isEmpty then parts
  else
    let textContent := pyStrip (renderList acc)
    if textContent ≠ "" then
      parts ++ [SplitPart.textPart (build_rich_text (HNode.elem 0 "span" [] (stripRun acc)))]
    else parts

/-- The children loop of `handle_images_with_split` (lines 477-504): split
the direct children into text runs and direct `<img>` children, marking each
newly seen image as processed. -/
def collectParts (st : ConvState) :
    List HNode → List HNode → List SplitPart → List SplitPart × ConvState
  | [], acc, parts => (flushText acc parts, st)
  | c :: rest, acc, parts =>
    match c with
    | .elem oid tag attrs _ =>
      if tag == "img" then
        let parts := flushText acc parts
        if st.processedImgs.contains oid then collectParts st rest [] parts
        else
          let st2 := { st with processedImgs := st.processedImgs ++ [oid] }
          match imgSrc attrs with
          | some src => collectParts st2 rest [] (parts ++ [SplitPart.imagePart src])
          | none => collectParts st2 rest [] parts
      else collectParts st rest (acc ++ [c]) parts
    | .text s => collectParts st rest (acc ++ [HNode.text s]) parts

/-- The deeper-nested-images fallback of `handle_images_with_split`
(lines 507-527): fetch/upload every not-yet-processed image; the collected
text parts are discarded. -/
def processFallbackImgs (net : Network) (siteId : String) :
    List HNode → ConvState → ConvState
  | [], st => st
  | .elem oid _ attrs _ :: rest, st =>
    if st.processedImgs.contains oid then processFallbackImgs net siteId rest st
    else
      let st2 := { st with processedImgs := st.processedImgs ++ [oid] }
      match imgSrc attrs with
      | some src => processFallbackImgs net siteId rest (processImageSrc net siteId src st2)
      | none => processFallbackImgs net siteId rest st2
  | .text _ :: rest, st => processFallbackImgs net siteId rest st

/-- Emit the collected parts in order (lines 529-553): text runs become
paragraphs only when `create_paragraph` is set; images are
fetched/uploaded/inserted. -/
def emitParts (net : Network) (siteId : String) (createParagraph : Bool) :
    List SplitPart → ConvState → ConvState
  | [], st => st
  | SplitPart.textPart rich :: rest, st =>
    let st2 :=
      if createParagraph && !rich.isEmpty then
        { st with blocks := st.blocks ++ [paragraphBlock rich] }
      else st
    emitParts net siteId createParagraph rest st2
  | SplitPart.imagePart src :: rest, st =>
    emitParts net siteId createParagraph rest (processImageSrc net siteId src st)

/-- `handle_images_with_split(el, create_paragraph)` (html_parser.py lines
454-555). Returns whether images were found (and handled). -/
def handle_images_with_split (net : Network) (siteId : String) (el : HNode)
    (createParagraph : Bool) (st : ConvState) : Bool × ConvState :=
  let imgs := (descN el).filter (isElemWithTag "img")
  if imgs.isEmpty then (false, st)
  else
    let cp := collectParts st el.childrenOf [] []
    if cp.1.all (fun p => match p with | .textPart _ => true | .imagePart _ => false) then
      (true, processFallbackImgs net siteId imgs cp.2)
    else
      (true, emitParts net siteId createParagraph cp.1 cp.2)

/-! ## process_list_recursive (html_parser.py lines 66-179) -/

/-- The one-`li` step of the `process_list_recursive` loop (html_parser.py
lines 94-177), parameterized by the already-computed conversion of the
item's nested list, threading `(collected items, state)`. -/
def listItemStep (net : Network) (siteId : String) (useImages : Bool)
    (btype : String) (cuTrue cuFalse : List String)
    (nestedConv : HNode → ConvState → List Block × ConvState)
    (acc : List Block × ConvState) (li : HNode) : List Block × ConvState :=
  let h := if useImages then handle_images_with_split net siteId li false acc.2
    else (false, acc.2)
  if h.1 then (acc.1, h.2)
  else
    let td := detectTodo li cuTrue cuFalse
    let rich := build_rich_text li true
    let nr :=
      match findDirectChild li.childrenOf ["ul", "ol"] with
      | some nested => nestedConv nested h.2
      | none => ([], h.2)
    let item := if td.1 then todoBlock rich td.2 nr.1 else listItemBlock btype rich nr.1
    (acc.1 ++ [item], nr.2)

/-- `process_list_recursive` (html_parser.py lines 66-179), made structural
on a fuel argument standing for the remaining depth budget; the wrapper
below supplies exactly `maxDepth - depth + 1` units, so the fuel-0 branch is
never reached. When `depth < maxDepth - 1` fails, the nested list is not
recursed into (the item gets no children). `useImages` models whether
`handle_images_fn`/`blocks_ref` were supplied (the converter passes
`handle_images_with_split`; the function's own default is `None`). -/
def processListFuel (net : Network) (siteId : String) (useImages : Bool) :
    Nat → HNode → Nat → Nat → List String → List String → ConvState →
    List Block × ConvState
  | 0, _, _, _, _, _, st => ([], st)
  | fuel + 1, listEl, depth, maxDepth, cuTrue, cuFalse, st =>
    match listEl with
    | .text _ => ([], st)
    | .elem _ tag _ cs =>
      let ordered := lowerStr tag == "ol"
      let btype := if ordered then "numbered_list_item" else "bulleted_list_item"
      let nestedConv := fun (nested : HNode) (st1 : ConvState) =>
        if depth < maxDepth - 1 then
          processListFuel net siteId useImages fuel nested (depth + 1) maxDepth
            cuTrue cuFalse st1
        else ([], st1)
      (cs.filter (isElemWithTag "li")).foldl
        (listItemStep net siteId useImages btype cuTrue cuFalse nestedConv) ([], st)

/-- `process_list_recursive(list_el, depth, max_depth, …)`. -/
def process_list_recursive (net : Network) (siteId : String) (useImages : Bool)
    (listEl : HNode) (depth maxDepth : Nat) (cuTrue cuFalse : List String)
    (st : ConvState) : List Block × ConvState :=
  processListFuel net siteId useImages (maxDepth - depth + 1) listEl depth maxDepth
    cuTrue cuFalse st

/-! ## html_to_blocks_and_tables (html_parser.py lines 326-687) -/

mutual
/-- One node and its descendants in document order, paired with each node's
parent tag name (needed for the nested-list skip at lines 590-591). -/
def descWithParentN : HNode → String → List (String × HNode)
  | .text s, parentTag => [(parentTag, HNode.text s)]
  | .elem oid t a kids, parentTag =>
    (parentTag, HNode.elem oid t a kids) :: descWithParentL t kids

def descWithParentL (parentTag : String) : List HNode → List (String × HNode)
  | [] => []
  | c :: cs => descWithParentN c parentTag ++ descWithParentL parentTag cs
end

/-- `body.descendants` with parent tags; the top-level parent is `body`. -/
def descWithParent (parentTag : String) (body : List HNode) : List (String × HNode) :=
  descWithParentL parentTag body

/-- One iteration of the converter's main descendants loop
(html_parser.py lines 567-674). -/
def convertStep (net : Network) (siteId : String) (parentTag : String)
    (el : HNode) (st : ConvState) : ConvState :=
  match el with
  | .text _ => st
  | .elem oid tag attrs cs =>
    let name := lowerStr tag
    if name == "h1" || name == "h2" || name == "h3" then
      -- `int(name[1])`: the single digit after the `h`
      let level :=
        match name.toList.drop 1 with
        | d :: _ => d.toNat - '0'.toNat
        | [] => 0
      { st with blocks := st.blocks ++ [headingBlock level (build_rich_text el)] }
    else if name == "blockquote" then
      { st with blocks := st.blocks ++ [quoteBlock (build_rich_text el)] }
    else if name == "pre" then
      let txt :=
        match findDesc el (isElemWithTag "code") with
        | some codeEl => get_text codeEl
        | none => get_text el
      { st with blocks := st.blocks ++ [codeBlock (pyStrip txt)] }
    else if name == "ul" || name == "ol" then
      if parentTag == "li" then st
      else
        let lr := process_list_recursive net siteId true el 0 3
          checkboxUnicodeTrue checkboxUnicodeFalse st
        { lr.2 with blocks := lr.2.blocks ++ lr.1 }
    else if name == "p" then
      let h := handle_images_with_split net siteId el true st
      if h.1 then h.2
      else
        let st1 := h.2
        let isTodo0 := dataTagTodo el
        let txt := get_text_strip " " el
        let tc : Bool × Bool :=
          if startsWithAny txt checkboxUnicodeTrue then (true, true)
          else if startsWithAny txt checkboxUnicodeFalse then (true, false)
          else if matchMarkdownChecked txt then (true, true)
          else if matchMarkdownUnchecked txt then (true, false)
          else (isTodo0, false)
        if tc.1 then
          { st1 with blocks := st1.blocks ++ [todoBlock (build_rich_text el) tc.2 []] }
        else if get_text_strip "" el ≠ "" then
          { st1 with blocks := st1.blocks ++ [paragraphBlock (build_rich_text el)] }
        else st1
    else if name == "table" then
      let rows := (cs.filter (isElemWithTag "tr")).map (fun tr =>
        ((tr.childrenOf).filter (fun c =>
          isElemWithTag "td" c || isElemWithTag "th" c)).map (get_text_strip " "))
      if rows.isEmpty then st else { st with tables := st.tables ++ [rows] }
    else if name == "img" then
      if st.processedImgs.contains oid then st
      else
        let st1 := { st with processedImgs := st.processedImgs ++ [oid] }
        match imgSrc attrs with
        | some src => processImageSrc net siteId src st1
        | none => st1
    else if name == "a" then
      let href := (getAttr attrs "href").getD ""
      if containsStr href "/onenote/resources/" then
        let r := fetch_resource net siteId href st
        match r.1 with
        | some fr =>
          if fr.data ≠ "" then
            let u := uploadCall net fr.fname fr.data fr.ctype r.2
            match u.1 with
            | some uid =>
              if uid ≠ "" then { u.2 with blocks := u.2.blocks ++ [fileBlock uid] }
              else u.2
            | none => u.2
          else r.2
        | none => r.2
      else st
    else st

/-- `html_to_blocks_and_tables` before the final `blocks[:150]` truncation:
the full descendants walk plus the empty-document fallback paragraph
(html_parser.py lines 346-684). `body` is the list of the document body's
top-level nodes. -/
def html_to_blocks_and_tables_raw (net : Network) (siteId : String)
    (body : List HNode) : ConvState :=
  let st := (descWithParent "body" body).foldl
    (fun st pe => convertStep net siteId pe.1 pe.2 st) ConvState.initial
  if st.blocks.isEmpty && forest_text_strip "" body ≠ "" then
    { st with blocks := [paragraphBlock [⟨forest_text_strip " " body, none, none⟩]] }
  else st

/-- `html_to_blocks_and_tables` (html_parser.py lines 326-687): the walk
followed by the 150-block hard cap `return blocks[:150], tables`. -/
def html_to_blocks_and_tables (net : Network) (siteId : String)
    (body : List HNode) : List Block × List (List (List String)) :=
  let st := html_to_blocks_and_tables_raw net siteId body
  (st.blocks.take 150, st.tables)

/-! ## ContentMapper._validate_blocks (content_mapper.py lines 218-299) -/

/-- Python `for i in range(0, len(l), 2000)` chunking of a character list
(fuel only makes the recursion structural; `l.length` units suffice). -/
def chunkListFuel : Nat → List Char → List (List Char)
  | 0, l => [l]
  | fuel + 1, l =>
    if l.length ≤ 2000 then [l]
    else l.take 2000 :: chunkListFuel fuel (l.drop 2000)

def chunkList (l : List Char) : List (List Char) :=
  chunkListFuel l.length l

/-- The over-limit span split of `_validate_blocks` (content_mapper.py lines
242-250): 2000-character chunks, the link is carried over, the annotations
key is NOT (the chunk dicts are rebuilt with only content and link). -/
def validateSpan (rt : RichSpan) : List RichSpan :=
  if strLen rt.content > 2000 then
    (chunkList rt.content.toList).map (fun chunk => ⟨String.mk chunk, rt.link, none⟩)
  else [rt]

/-- Sum of text span content lengths (content_mapper.py line 259). -/
def totalTextLen (rts : List RichSpan) : Nat :=
  (rts.map (fun rt => strLen rt.content)).sum

/-- A block rebuilt by the splitting loop of `_validate_blocks` (lines
275-294): only `object`, `type` and `rich_text` are kept, so `checked` and
`children` of the original block are lost. -/
def mkBareBlock (btype : String) (rich : List RichSpan) : Block :=
  .mk btype rich false [] "" 0 false [] ""

def Block.withRich : Block → List RichSpan → Block
  | .mk t _ c ch u w h ce l, r => .mk t r c ch u w h ce l

/-- The greedy block-splitting loop of `_validate_blocks` (lines 266-294):
accumulate spans until adding one would push the running length past 2000,
then flush. -/
def splitBlockRuns (btype : String) : List RichSpan → List RichSpan → Nat → List Block
  | [], cur, _ => if cur.isEmpty then [] else [mkBareBlock btype cur]
  | rt :: rest, cur, curLen =>
    let rtLen := strLen rt.content
    if curLen + rtLen > 2000 && !cur.isEmpty then
      mkBareBlock btype cur :: splitBlockRuns btype rest [rt] rtLen
    else splitBlockRuns btype rest (cur ++ [rt]) (curLen + rtLen)

/-- `ContentMapper._validate_blocks` (content_mapper.py lines 218-299).
Blocks whose `rich_text` list is empty (images, files, tables) are DROPPED
by the final `else` branch. -/
def validate_blocks : List Block → List Block
  | [] => []
  | b :: rest =>
    if b.btype = "" then validate_blocks rest
    else
      let newRich := (b.rich.map validateSpan).flatten
      if !newRich.isEmpty then
        if totalTextLen newRich ≤ 2000 then
          b.withRich newRich :: validate_blocks rest
        else splitBlockRuns b.btype newRich [] 0 ++ validate_blocks rest
      else validate_blocks rest

/-! ## append_table (html_parser.py lines 690-737) -/

/-- `max(len(r) for r in rows)` over a non-empty `rows`. -/
def maxRowLen (rows : List (List String)) : Nat :=
  (rows.map List.length).foldl max 0

/-- `append_table` (html_parser.py lines 690-737) up to the network push:
the single table block (with its `table_row` children) handed to
`notion_client.append_blocks`. Empty input performs no call (`none`). Each
row is right-padded with empty-string cells to the table width and every
cell's text is truncated to 2000 characters. -/
def append_table (rows : List (List String)) : Option Block :=
  if rows.isEmpty then none
  else
    let width := maxRowLen rows
    let rowChildren := rows.map (fun r =>
      let padded := r ++ List.replicate (width - r.length) ""
      tableRowBlock (padded.map (fun c => [RichSpan.mk (strTake c 2000) none none])))
    some (tableBlock width (decide (1 < rows.length)) rowChildren)

/-! ## Pass-2 link resolution (cli.py lines 479-631) -/

/-- Association-list lookup modelling a Python dict read. -/
def lookupMapping (m : List (String × String)) (key : String) : Option String :=
  (m.find? (fun p => p.1 == key)).map (fun p => p.2)

/-- `f"https://notion.so/{notion_target_id.replace('-', '')}"`
(cli.py line 606). -/
def notionUrlOf (targetId : String) : String :=
  "https://notion.so/" ++ replaceStr targetId "-" ""

/-- The per-span body of `_resolve_links_in_blocks` (cli.py lines 587-619):
a span whose content contains the marker and which carries a link is
rewritten (marker stripped everywhere, link set to the destination URL,
other fields kept by the shallow `rt.copy()`) exactly when the extracted id
is non-empty (the `if onenote_page_id:` truthiness guard at cli.py line
596 — `extract_page_id_from_link` can return the empty string, e.g. when
the capture brace-strips to nothing) and its lowercased, brace-stripped
form is in the mapping; otherwise the span is taken over unchanged. The
Bool reports a rewrite. -/
def resolveSpan (mapping : List (String × String)) (marker : String)
    (rt : RichSpan) : RichSpan × Bool :=
  match rt.link with
  | some href =>
    if containsStr rt.content marker then
      match extract_page_id_from_link href with
      | some pid =>
        if pid ≠ "" then
          let nid := stripBraces (lowerStr pid)
          match lookupMapping mapping nid with
          | some target =>
            ({ content := replaceStr rt.content marker "",
               link := some (notionUrlOf target),
               annotations := rt.annotations }, true)
          | none => (rt, false)
        else (rt, false)
      | none => (rt, false)
    else (rt, false)
  | none => (rt, false)

/-- The rich-text loop of `_resolve_links_in_blocks` for one block (cli.py
lines 584-619): the rewritten list, whether any span was rewritten
(`needs_update`), and the number of rewrites (`resolved_count`). -/
def resolveRichTextLoop (mapping : List (String × String)) (marker : String) :
    List RichSpan → List RichSpan × Bool × Nat
  | [] => ([], false, 0)
  | rt :: rest =>
    let r1 := resolveSpan mapping marker rt
    let rr := resolveRichTextLoop mapping marker rest
    (r1.1 :: rr.1, r1.2 || rr.2.1, (if r1.2 then 1 else 0) + rr.2.2)

/-- One block of `_resolve_links_in_blocks` (cli.py lines 569-629): returns
the block (with rewritten rich text exactly when `needs_update`, in which
case `update_block` pushes it), the push flag, and the resolved count. -/
def resolveOneBlock (mapping : List (String × String)) (marker : String)
    (b : Block) : Block × Bool × Nat :=
  if b.btype = "" then (b, false, 0)
  else if b.rich.isEmpty then (b, false, 0)
  else
    let r := resolveRichTextLoop mapping marker b.rich
    (if r.2.1 then b.withRich r.1 else b, r.2.1, r.2.2)

/-- `_resolve_links_in_blocks` (cli.py lines 552-631) over a page's block
list: per block the (possibly) updated block and whether it was pushed via
`update_block`, plus the total resolved count. -/
def resolve_links_in_blocks (mapping : List (String × String)) (marker : String) :
    List Block → List (Block × Bool) × Nat
  | [] => ([], 0)
  | b :: rest =>
    let r := resolveOneBlock mapping marker b
    let rr := resolve_links_in_blocks mapping marker rest
    ((r.1, r.2.1) :: rr.1, r.2.2 + rr.2)

/-! ## State manager and the v0.8.4 per-page step
(src/core/state_manager.py, src/onenote_to_notion_v0_8_4.py lines 441-489) -/

/-- One entry of `state["pages"]`. -/
structure PageStateEntry where
  notion_id : String
  checksum : String
  ts : Nat
deriving DecidableEq, Repr

/-- The `pages` map of the state file, as an association list with unique
keys (Python dict). -/
def StateMap := List (String × PageStateEntry)

def lookupState : List (String × PageStateEntry) → String → Option PageStateEntry
  | [], _ => none
  | (k, e) :: rest, key => if k == key then some e else lookupState rest key

/-- Python dict assignment `state["pages"][key] = e`. -/
def setStateEntry : List (String × PageStateEntry) → String → PageStateEntry →
    List (String × PageStateEntry)
  | [], key, e => [(key, e)]
  | (k, e0) :: rest, key, e =>
    if k == key then (key, e) :: rest else (k, e0) :: setStateEntry rest key e

/-- `StateManager.is_page_unchanged` (state_manager.py lines 63-69): a page
is unchanged exactly when a stored state exists for the key and its stored
checksum equals the current checksum. -/
def is_page_unchanged (s : List (String × PageStateEntry)) (key cs : String) : Bool :=
  match lookupState s key with
  | none => false
  | some ps => ps.checksum == cs

/-- `StateManager.set_page_state` (state_manager.py lines 50-61). -/
def set_page_state (s : List (String × PageStateEntry))
    (key pageId checksum : String) (ts : Nat) : List (String × PageStateEntry) :=
  setStateEntry s key ⟨pageId, checksum, ts⟩

/-- `generate_page_key` (state_manager.py lines 87-89). -/
def generate_page_key (siteId notebookId sectionId pageId : String) : String :=
  siteId ++ ":" ++ notebookId ++ ":" ++ sectionId ++ ":" ++ pageId

/-- Outcome of the v0.8.4 main loop for one page. -/
inductive PageOutcome where
  | skipUnchanged
  | dryRunNoted
  | imported
deriving DecidableEq, Repr

structure PageStepResult where
  outcome : PageOutcome
  state : List (String × PageStateEntry)
  writes : Nat
deriving Repr

/-- The per-page step of `main` in onenote_to_notion_v0_8_4.py (lines
441-489). `md5fn` models `hashlib.md5(...).hexdigest()` (a pure function of
the markup). Skip: `args.resume and state["pages"].get(st_key,
\x7b\x7d).get("checksum") == checksum` → no destination write. Dry-run
records the checksum without writing. Import performs the destination
writes — abstracted as `1 + numTables` calls (create/update+append plus one
`append_table` per table) — and records `(checksum, notion_id, ts)`. -/
def process_page_step (resume dryRun : Bool) (md5fn : String → String)
    (state : List (String × PageStateEntry)) (stKey html notionPageId : String)
    (numTables ts : Nat) : PageStepResult :=
  let checksum := md5fn html
  let stored := (lookupState state stKey).map (fun e => e.checksum)
  if resume && stored == some checksum then
    ⟨.skipUnchanged, state, 0⟩
  else if dryRun then
    ⟨.dryRunNoted, set_page_state state stKey "dry-run" checksum ts, 0⟩
  else
    ⟨.imported, set_page_state state stKey notionPageId checksum ts, 1 + numTables⟩

/-! ## ResourceHandler.process_image (resource_handler.py lines 46-94) -/

/-- The mutable state of a `ResourceHandler`: the per-URL cache
(URL → uploaded Notion URL) plus logs of download and upload calls. -/
structure RHState where
  cache : List (String × String)
  downloadLog : List String
  uploadLog : List String
deriving Repr

/-- `ResourceHandler.process_image` (resource_handler.py lines 46-94).
`downloadFn` models `_download_resource` (local path or failure), `uploadFn`
models `_upload_to_notion` (Notion URL / upload id or failure). On a cache
hit the block is rebuilt from the cached URL with no download or upload; on
a miss the resolved URL is cached. The returned image block is modelled with
`uploadId` carrying the block's file URL. -/
def ResourceHandler.process_image (downloadFn : String → Option String)
    (uploadFn : String → Option String) (imgUrl : String) (st : RHState) :
    Option Block × RHState :=
  match lookupMapping st.cache imgUrl with
  | some cached => (some (imageBlock cached), st)
  | none =>
    let st1 := { st with downloadLog := st.downloadLog ++ [imgUrl] }
    match downloadFn imgUrl with
    | none => (none, st1)
    | some localPath =>
      let st2 := { st1 with uploadLog := st1.uploadLog ++ [localPath] }
      match uploadFn localPath with
      | none => (none, st2)
      | some notionUrl =>
        (some (imageBlock notionUrl),
         { st2 with cache := st2.cache ++ [(imgUrl, notionUrl)] })

/-! ## Helper lemmas -/

theorem le_foldl_max (l : List Nat) : ∀ init : Nat, init ≤ l.foldl max init := by
  induction l with
  | nil => simp
  | cons a t ih =>
    intro init
    exact le_trans (le_max_left init a) (ih (max init a))

theorem mem_le_foldl_max (l : List Nat) : ∀ init : Nat, ∀ a ∈ l, a ≤ l.foldl max init := by
  induction l with
  | nil => simp
  | cons b t ih =>
    intro init a ha
    rcases List.mem_cons.mp ha with h | h
    · subst h
      exact le_trans (le_max_right init a) (le_foldl_max t (max init a))
    · exact ih (max init b) a h

/-- Every row of a non-empty table is at most as wide as the computed table
width. -/
theorem row_le_maxRowLen (rows : List (List String)) (r : List String)
    (hr : r ∈ rows) : r.length ≤ maxRowLen rows :=
  mem_le_foldl_max (rows.map List.length) 0 r.length (List.mem_map_of_mem List.length hr)

/-- Updating the state map makes the new entry visible under its key. -/
theorem lookupState_setStateEntry (s : List (String × PageStateEntry))
    (key : String) (e : PageStateEntry) :
    lookupState (setStateEntry s key e) key = some e := by
  induction s with
  | nil => simp [setStateEntry, lookupState]
  | cons p rest ih =>
    obtain ⟨k, e0⟩ := p
    by_cases h : k == key
    · simp [setStateEntry, lookupState, h]
    · simp only [setStateEntry, lookupState, h]
      simpa [h] using ih

/-! ## Claim C9 (corrected) -/

/-- C9, counterexample: the claim says a numeric font-weight of at least 700
— for example `font-weight:750` — sets the bold annotation. The code only
substring-matches the literals `font-weight:bold`, `font-weight:700`,
`font-weight:800`, `font-weight:900`, so `font-weight:750` yields no bold,
both in `parse_style_annotations` and in the spans `build_rich_text`
produces from such an element. -/
theorem C9_counterexample :
    (parse_style_annotations "font-weight:750").bold = false ∧
    build_rich_text (.elem 0 "span" [("style", "font-weight:750")] [.text "x"]) =
      [⟨"x", none, none⟩] := by
  constructor
  · decide
  · decide

/-- C9, amended: the bold annotation is set for a CSS style containing
`font-weight:bold` or one of the literal numeric values 700, 800, 900
(substring match on the lowercased style); other numeric weights ≥ 700, such
as 750, are not recognized. -/
theorem C9_amended :
    (∀ w : String, w ∈ ["bold", "700", "800", "900"] →
      (parse_style_annotations ("font-weight:" ++ w)).bold = true) ∧
    build_rich_text (.elem 0 "span" [("style", "font-weight:700")] [.text "hi"]) =
      [⟨"hi", none, some ⟨true, false, false, false, false⟩⟩] ∧
    (parse_style_annotations "font-weight:750").bold = false := by
  refine ⟨?_, by decide, by decide⟩
  intro w hw
  fin_cases hw <;> decide

/-- Witness for the hypothesis of `C9_amended`. -/
theorem C9_amended_witness :
    (parse_style_annotations ("font-weight:" ++ "700")).bold = true :=
  C9_amended.1 "700" (by decide)

/-! ## Claim C10 (confirmed) -/

/-- C10: for every non-empty list of table rows, `append_table` emits one
table block whose width is the maximum cell count over the rows, whose every
`table_row` child has exactly that many cells (ragged rows are right-padded
with empty-string cells), and whose every cell text is at most 2000
characters. -/
theorem C10 (rows : List (List String)) (hne : rows ≠ []) :
    ∃ tb, append_table rows = some tb ∧
      tb.btype = "table" ∧
      tb.tableWidth = maxRowLen rows ∧
      tb.children.length = rows.length ∧
      tb.children = rows.map (fun r =>
        tableRowBlock ((r ++ List.replicate (maxRowLen rows - r.length) "").map
          (fun c => [RichSpan.mk (strTake c 2000) none none]))) ∧
      ∀ rb ∈ tb.children, rb.btype = "table_row" ∧
        rb.cells.length = maxRowLen rows ∧
        ∀ cell ∈ rb.cells, ∀ sp ∈ cell, strLen sp.content ≤ 2000 := by
  have hempty : rows.isEmpty = false := by
    cases rows with
    | nil => exact absurd rfl hne
    | cons a t => rfl
  have happ : append_table rows = some (tableBlock (maxRowLen rows)
      (decide (1 < rows.length))
      (rows.map (fun r =>
        tableRowBlock ((r ++ List.replicate (maxRowLen rows - r.length) "").map
          (fun c => [RichSpan.mk (strTake c 2000) none none]))))) := by
    simp [append_table, hempty]
  refine ⟨_, happ, rfl, rfl, by simp [tableBlock, Block.children], rfl, ?_⟩
  · intro rb hrb
    simp only [tableBlock, Block.children] at hrb
    rcases List.mem_map.mp hrb with ⟨r, hr, rfl⟩
    refine ⟨rfl, ?_, ?_⟩
    · have hle := row_le_maxRowLen rows r hr
      simp only [tableRowBlock, Block.cells, List.length_map, List.length_append,
        List.length_replicate]
      omega
    · intro cell hcell sp hsp
      simp only [tableRowBlock, Block.cells] at hcell
      rcases List.mem_map.mp hcell with ⟨c, _, rfl⟩
      rcases List.mem_singleton.mp hsp with rfl
      simp only [strLen, strTake]
      have h : (c.toList.take 2000).length ≤ 2000 := by
        simp [List.length_take]
      simp only [String.toList]
      exact h

/-- Witness for the hypothesis of `C10`: a concrete ragged two-row table. -/
theorem C10_witness :
    ∃ tb, append_table [["a"], ["b", "c"]] = some tb ∧
      tb.btype = "table" ∧
      tb.tableWidth = maxRowLen [["a"], ["b", "c"]] ∧
      tb.children.length = ([["a"], ["b", "c"]] : List (List String)).length ∧
      tb.children = [["a"], ["b", "c"]].map (fun r =>
        tableRowBlock ((r ++ List.replicate (maxRowLen [["a"], ["b", "c"]] - r.length) "").map
          (fun c => [RichSpan.mk (strTake c 2000) none none]))) ∧
      ∀ rb ∈ tb.children, rb.btype = "table_row" ∧
        rb.cells.length = maxRowLen [["a"], ["b", "c"]] ∧
        ∀ cell ∈ rb.cells, ∀ sp ∈ cell, strLen sp.content ≤ 2000 :=
  C10 [["a"], ["b", "c"]] (by decide)

/-! ## Claim C8 (confirmed) -/

/-- C8: (i) `is_page_unchanged` holds exactly when a stored state exists for
the composite key and its stored checksum equals the current (MD5) checksum
of the fetched markup; (ii) with `--resume`, running the per-page step a
second time on identical markup — whatever the first run did (skip, dry-run
note, or import) — yields the skip-unchanged outcome with zero destination
writes. `md5fn` stands for `hashlib.md5(html).hexdigest()`, a pure function
of the markup, so identical markup gives an equal checksum. -/
theorem C8 :
    (∀ (s : List (String × PageStateEntry)) (key cs : String),
      is_page_unchanged s key cs = true ↔
        ∃ e, lookupState s key = some e ∧ e.checksum = cs) ∧
    (∀ (md5fn : String → String) (s0 : List (String × PageStateEntry))
      (dr : Bool) (key html nid nid2 : String) (nt nt2 ts ts2 : Nat),
      (process_page_step true false md5fn
        (process_page_step true dr md5fn s0 key html nid nt ts).state
        key html nid2 nt2 ts2).outcome = PageOutcome.skipUnchanged ∧
      (process_page_step true false md5fn
        (process_page_step true dr md5fn s0 key html nid nt ts).state
        key html nid2 nt2 ts2).writes = 0) := by
  constructor
  · intro s key cs
    unfold is_page_unchanged
    cases h : lookupState s key with
    | none => simp [h]
    | some ps =>
      simp only [h, beq_iff_eq]
      constructor
      · intro he
        exact ⟨ps, rfl, he⟩
      · rintro ⟨e, he, hcs⟩
        cases he
        exact hcs
  · intro md5fn s0 dr key html nid nid2 nt nt2 ts ts2
    have hsecond : ∀ st : List (String × PageStateEntry),
        (lookupState st key).map (fun e => e.checksum) = some (md5fn html) →
        process_page_step true false md5fn st key html nid2 nt2 ts2 =
          ⟨PageOutcome.skipUnchanged, st, 0⟩ := by
      intro st h
      simp [process_page_step, h]
    by_cases h1 : (lookupState s0 key).map (fun e => e.checksum) = some (md5fn html)
    · have hr1 : process_page_step true dr md5fn s0 key html nid nt ts =
          ⟨PageOutcome.skipUnchanged, s0, 0⟩ := by
        simp [process_page_step, h1]
      rw [hr1]
      rw [hsecond s0 h1]
      exact ⟨rfl, rfl⟩
    · have hr1 : (process_page_step true dr md5fn s0 key html nid nt ts).state =
          setStateEntry s0 key ⟨if dr then "dry-run" else nid, md5fn html, ts⟩ := by
        cases dr with
        | false => simp [process_page_step, h1, set_page_state]
        | true => simp [process_page_step, h1, set_page_state]
      have hl : (lookupState (process_page_step true dr md5fn s0 key html nid nt ts).state
          key).map (fun e => e.checksum) = some (md5fn html) := by
        rw [hr1, lookupState_setStateEntry]
        rfl
      rw [hsecond _ hl]
      exact ⟨rfl, rfl⟩

/-! ## Claim C3 (code bug: the block-update push cannot succeed) -/

/-- C3: the in-memory pass-2 span logic behaves as claimed — a marked,
linked span whose extracted page id is non-empty and, once lowercased and
brace-stripped, present in the mapping is rewritten (marker removed, link
replaced by the destination page URL) and its block flagged
(`needs_update`) so that cli.py line 624 calls
`self.notion.update_block(...)`; a span whose id brace-strips to the empty
string (the cli.py:596 truthiness guard) or is absent from the mapping is
taken over unchanged with the marker intact. The claimed PUSH itself is
broken in the code: `NotionClient` (src/core/notion_client.py) defines no
`update_block` method, so the call always raises and dies in the `except`
at cli.py lines 626-629 — no update ever reaches the destination even
though `resolved_count` reports the link as corrected. This theorem
evaluates the model at the failing input (first two conjuncts: the rewrite
is computed and the doomed push is triggered) and at the two
leave-unchanged inputs. -/
theorem C3_bug :
    resolveSpan [("abc-12", "Dest-Id")] INCOMPLETE_LINK_MARKER
      ⟨"Ziel (Verlinkung unvollständig)",
        some "onenote:#page-id=\x7bABC-12\x7d&end", none⟩ =
      (⟨"Ziel", some "https://notion.so/DestId", none⟩, true) ∧
    resolveOneBlock [("abc-12", "Dest-Id")] INCOMPLETE_LINK_MARKER
      (paragraphBlock [⟨"Ziel (Verlinkung unvollständig)",
        some "onenote:#page-id=\x7bABC-12\x7d&end", none⟩]) =
      (paragraphBlock [⟨"Ziel", some "https://notion.so/DestId", none⟩], true, 1) ∧
    extract_page_id_from_link "a?page-id=\x7b\x7d&b" = some "" ∧
    resolveSpan [("", "X-Id")] INCOMPLETE_LINK_MARKER
      ⟨"Ziel (Verlinkung unvollständig)", some "a?page-id=\x7b\x7d&b", none⟩ =
      (⟨"Ziel (Verlinkung unvollständig)", some "a?page-id=\x7b\x7d&b", none⟩,
        false) ∧
    resolveSpan [] INCOMPLETE_LINK_MARKER
      ⟨"Ziel (Verlinkung unvollständig)",
        some "onenote:#page-id=\x7bABC-12\x7d&end", none⟩ =
      (⟨"Ziel (Verlinkung unvollständig)",
        some "onenote:#page-id=\x7bABC-12\x7d&end", none⟩, false) :=
  ⟨by decide, by rfl, by decide, by decide, by decide⟩

/-! ## Claim C4 (confirmed) -/

/-- A network whose fetch and upload always fail; used to instantiate
conversions whose inputs contain no resources. -/
def inertNet : Network := ⟨fun _ => none, fun _ _ _ => none⟩

/-- C4: to-do detection short-circuits at its first matching signal, the
checkbox-type input descendant being checked first. For a list item that
contains an unchecked checkbox input AND an image whose alt text contains
"checked", the item is classified as a to-do with `checked = false` — the
checkbox input decides, not the image alt text — and `process_list_recursive`
emits it as a `to_do` block with `checked = false`. -/
theorem C4 (li cb img : HNode)
    (hli : isElemWithTag "li" li = true)
    (hcb : findCheckbox li = some cb)
    (hunchecked : hasAttrIn cb.attrsOf "checked" = false)
    (_himg : findImg li = some img)
    (_halt : containsStr (lowerStr ((getAttr img.attrsOf "alt").getD "")) "checked" = true) :
    detectTodo li checkboxUnicodeTrue checkboxUnicodeFalse = (true, false) ∧
    ∀ (oid : Nat) (attrs : List (String × String)) (net : Network) (siteId : String)
      (st : ConvState),
      ∃ ch, (process_list_recursive net siteId false (.elem oid "ul" attrs [li]) 0 3
        checkboxUnicodeTrue checkboxUnicodeFalse st).1 =
        [todoBlock (build_rich_text li true) false ch] := by
  have hdet : detectTodo li checkboxUnicodeTrue checkboxUnicodeFalse = (true, false) := by
    simp [detectTodo, hcb, hunchecked]
  refine ⟨hdet, ?_⟩
  intro oid attrs net siteId st
  have hfilter : ([li].filter (isElemWithTag "li")) = [li] := by
    simp [List.filter, hli]
  simp only [process_list_recursive, processListFuel, hfilter]
  simp only [listItemStep, Bool.false_eq_true, if_false, List.foldl, hdet]
  cases hfd : findDirectChild li.childrenOf ["ul", "ol"] with
  | none => exact ⟨[], by simp⟩
  | some nested =>
    exact ⟨(processListFuel net siteId false 3 nested 1 3 checkboxUnicodeTrue
      checkboxUnicodeFalse st).1, by simp [processListFuel]⟩

/-- The concrete list item of the C4 witness: an unchecked checkbox input
followed by a "checked"-alt image. -/
def c4li : HNode :=
  .elem 10 "li" [] [
    .elem 11 "input" [("type", "checkbox")] [],
    .elem 12 "img" [("alt", "checked symbol")] [],
    .text "Task A"]

/-- Witness for the hypotheses of `C4`. -/
theorem C4_witness :
    detectTodo c4li checkboxUnicodeTrue checkboxUnicodeFalse = (true, false) ∧
    ∃ ch, (process_list_recursive inertNet "s" false (.elem 0 "ul" [] [c4li]) 0 3
      checkboxUnicodeTrue checkboxUnicodeFalse ConvState.initial).1 =
      [todoBlock (build_rich_text c4li true) false ch] :=
  ⟨(C4 c4li (.elem 11 "input" [("type", "checkbox")] [])
      (.elem 12 "img" [("alt", "checked symbol")] [])
      (by decide) (by rfl) (by decide) (by rfl) (by decide)).1,
   (C4 c4li (.elem 11 "input" [("type", "checkbox")] [])
      (.elem 12 "img" [("alt", "checked symbol")] [])
      (by decide) (by rfl) (by decide) (by rfl) (by decide)).2
     0 [] inertNet "s" ConvState.initial⟩

/-! ## Claim C5 (corrected) -/

mutual
/-- Nesting depth of a block: 1 plus the depth of its children list. -/
def blockDepth : Block → Nat
  | .mk _ _ _ ch _ _ _ _ _ => 1 + blockDepthL ch

def blockDepthL : List Block → Nat
  | [] => 0
  | b :: rest => max (blockDepth b) (blockDepthL rest)
end

mutual
/-- Does the needle occur in any rich-text or cell content of the block tree? -/
def blockMentions (needle : String) : Block → Bool
  | .mk _ rich _ ch _ _ _ cells _ =>
    rich.any (fun sp => containsStr sp.content needle) ||
    cells.any (fun cell => cell.any (fun sp => containsStr sp.content needle)) ||
    blockMentionsL needle ch

def blockMentionsL (needle : String) : List Block → Bool
  | [] => false
  | b :: rest => blockMentions needle b || blockMentionsL needle rest
end

theorem blockDepthL_append (a b : List Block) :
    blockDepthL (a ++ b) = max (blockDepthL a) (blockDepthL b) := by
  induction a with
  | nil => simp [blockDepthL]
  | cons hd t ih => simp [blockDepthL, ih, Nat.max_assoc]

/-- Invariant of the per-item loop: if the nested conversion produces depth
at most `k` and the accumulator has depth at most `k + 1`, so does the
result. -/
theorem listItemStep_foldl_depth (net : Network) (siteId : String) (ui : Bool)
    (btype : String) (cuT cuF : List String) (k : Nat)
    (nc : HNode → ConvState → List Block × ConvState)
    (hnc : ∀ n st1, blockDepthL (nc n st1).1 ≤ k) :
    ∀ (lis : List HNode) (acc : List Block × ConvState),
      blockDepthL acc.1 ≤ k + 1 →
      blockDepthL ((lis.foldl (listItemStep net siteId ui btype cuT cuF nc) acc)).1 ≤
        k + 1 := by
  intro lis
  induction lis with
  | nil => intro acc h; exact h
  | cons li rest ih =>
    intro acc hacc
    apply ih
    unfold listItemStep
    by_cases hh : (if ui then handle_images_with_split net siteId li false acc.2
        else (false, acc.2)).1
    · simp only [hh, if_true]
      exact hacc
    · simp only [hh, if_false, Bool.false_eq_true]
      have hnr : ∀ nr : List Block × ConvState, blockDepthL nr.1 ≤ k →
          blockDepthL (acc.1 ++
            [if (detectTodo li cuT cuF).1 then
              todoBlock (build_rich_text li true) (detectTodo li cuT cuF).2 nr.1
            else listItemBlock btype (build_rich_text li true) nr.1]) ≤ k + 1 := by
        intro nr hk
        rw [blockDepthL_append]
        have hitem : blockDepth (if (detectTodo li cuT cuF).1 then
            todoBlock (build_rich_text li true) (detectTodo li cuT cuF).2 nr.1
          else listItemBlock btype (build_rich_text li true) nr.1) = 1 + blockDepthL nr.1 := by
          by_cases ht : (detectTodo li cuT cuF).1 <;>
            simp [ht, todoBlock, listItemBlock, blockDepth]
        simp only [blockDepthL, hitem]
        omega
      cases hfd : findDirectChild li.childrenOf ["ul", "ol"] with
      | none =>
        apply hnr
        simp [blockDepthL]
      | some nested =>
        apply hnr
        exact hnc nested _

/-- Depth bound for the fuel-indexed list conversion: every produced block
nests at most `max 1 (maxDepth − depth)` levels. -/
theorem processListFuel_depth (net : Network) (siteId : String) (ui : Bool)
    (cuT cuF : List String) :
    ∀ (fuel : Nat) (listEl : HNode) (d md : Nat) (st : ConvState),
      blockDepthL (processListFuel net siteId ui fuel listEl d md cuT cuF st).1 ≤
        max 1 (md - d) := by
  intro fuel
  induction fuel with
  | zero =>
    intro listEl d md st
    simp [processListFuel, blockDepthL]
  | succ f ih =>
    intro listEl d md st
    cases listEl with
    | text s => simp [processListFuel, blockDepthL]
    | elem oid tag attrs cs =>
      simp only [processListFuel]
      by_cases hd : d < md - 1
      · have hm : max 1 (md - d) = (md - d - 1) + 1 := by omega
        rw [hm]
        apply listItemStep_foldl_depth net siteId ui _ cuT cuF (md - d - 1)
        · intro n st1
          simp only [if_pos hd]
          have h1 := ih n (d + 1) md st1
          have h2 : max 1 (md - (d + 1)) = md - d - 1 := by omega
          rw [h2] at h1
          exact h1
        · simp [blockDepthL]
      · have hm : max 1 (md - d) = 0 + 1 := by omega
        rw [hm]
        apply listItemStep_foldl_depth net siteId ui _ cuT cuF 0
        · intro n st1
          simp [if_neg hd, blockDepthL]
        · simp [blockDepthL]

/-- A four-level-deep nested unordered list with texts L1..L4. -/
def l4doc : HNode :=
  .elem 1 "ul" [] [.elem 2 "li" [] [.text "L1",
    .elem 3 "ul" [] [.elem 4 "li" [] [.text "L2",
      .elem 5 "ul" [] [.elem 6 "li" [] [.text "L3",
        .elem 7 "ul" [] [.elem 8 "li" [] [.text "L4"]]]]]]]]

/-- C5, counterexample: on a 4-level list, the 4th level's text "L4" is
present in the source but appears NOWHERE in the emitted blocks — in
particular it is not flattened into the depth-3 parent item's text (that
item's rich text is exactly "L3"), because `build_rich_text` is called with
`exclude_nested_lists=True` and drops the whole nested-list subtree. -/
theorem C5_counterexample :
    containsStr (get_text l4doc) "L4" = true ∧
    blockMentionsL "L4" (process_list_recursive inertNet "s" false l4doc 0 3
      checkboxUnicodeTrue checkboxUnicodeFalse ConvState.initial).1 = false ∧
    (process_list_recursive inertNet "s" false l4doc 0 3
      checkboxUnicodeTrue checkboxUnicodeFalse ConvState.initial).1 =
      [listItemBlock "bulleted_list_item" [⟨"L1", none, none⟩]
        [listItemBlock "bulleted_list_item" [⟨"L2", none, none⟩]
          [listItemBlock "bulleted_list_item" [⟨"L3", none, none⟩] []]]] :=
  ⟨by decide, by decide, by rfl⟩

/-- C5, amended: nested-list conversion emits blocks nested at most 3 deep
(a 4-level list yields list items only for the first 3 levels), and content
beyond the depth cap is dropped entirely — it is neither emitted as its own
block nor flattened into the last-permitted-depth parent's text. -/
theorem C5_amended :
    (∀ (net : Network) (siteId : String) (ui : Bool) (listEl : HNode) (st : ConvState),
      blockDepthL (process_list_recursive net siteId ui listEl 0 3
        checkboxUnicodeTrue checkboxUnicodeFalse st).1 ≤ 3) ∧
    (process_list_recursive inertNet "s" false l4doc 0 3
      checkboxUnicodeTrue checkboxUnicodeFalse ConvState.initial).1 =
      [listItemBlock "bulleted_list_item" [⟨"L1", none, none⟩]
        [listItemBlock "bulleted_list_item" [⟨"L2", none, none⟩]
          [listItemBlock "bulleted_list_item" [⟨"L3", none, none⟩] []]]] ∧
    blockMentionsL "L4" (process_list_recursive inertNet "s" false l4doc 0 3
      checkboxUnicodeTrue checkboxUnicodeFalse ConvState.initial).1 = false := by
  refine ⟨?_, by rfl, by decide⟩
  intro net siteId ui listEl st
  have h := processListFuel_depth net siteId ui checkboxUnicodeTrue checkboxUnicodeFalse
    (3 - 0 + 1) listEl 0 3 st
  simpa [process_list_recursive] using h

/-! ## Claim C1 (corrected) -/

theorem pyStripList_ne_nil (l : List Char) (c : Char) (hc : c ∈ l)
    (hw : c.isWhitespace = false) : pyStripList l ≠ [] := by
  intro h
  unfold pyStripList at h
  rw [List.reverse_eq_nil_iff] at h
  have hall : ∀ x ∈ l.dropWhile Char.isWhitespace, x.isWhitespace := by
    intro x hx
    have := List.dropWhile_eq_nil_iff.mp h x
    exact this (List.mem_reverse.mpr hx)
  have hsplit := List.takeWhile_append_dropWhile (p := Char.isWhitespace) (l := l)
  rw [← hsplit] at hc
  rcases List.mem_append.mp hc with hcm | hcm
  · exact absurd (List.mem_takeWhile_imp hcm) (by simp [hw])
  · exact absurd (hall c hcm) (by simp [hw])

theorem pyStrip_ne_empty (s : String) (c : Char) (hc : c ∈ s.toList)
    (hw : c.isWhitespace = false) : pyStrip s ≠ "" := by
  intro h
  have hl : pyStripList s.toList = [] := congrArg String.toList h
  exact pyStripList_ne_nil s.toList c hc hw hl

/-- Truncation keeps every part at ≤ 2000 characters. -/
theorem truncatePart_le (p : Part) : strLen (truncatePart p).content ≤ 2000 := by
  unfold truncatePart
  by_cases h : strLen p.content > 2000
  · rw [if_pos h]
    simp [strLen, strTake, List.length_take]
  · rw [if_neg h]
    omega

/-- Every span `build_rich_text` emits has content of at most 2000
characters (the over-limit parts are truncated, the fallback span is
empty). -/
theorem build_rich_text_span_le (node : HNode) (ex : Bool) :
    ∀ sp ∈ build_rich_text node ex, strLen sp.content ≤ 2000 := by
  intro sp hsp
  simp only [build_rich_text] at hsp
  split at hsp
  · rcases List.mem_singleton.mp hsp with rfl
    simp [strLen]
  · rcases List.mem_map.mp hsp with ⟨p, hp, rfl⟩
    rcases List.mem_map.mp hp with ⟨q, _, rfl⟩
    exact truncatePart_le q

/-- `build_rich_text` on a paragraph wrapping one long text node: the single
part survives the whitespace filter and is truncated to its first 2000
characters — the remainder of the content is dropped, not split into
further spans. -/
theorem build_rich_text_p_long (oid : Nat) (s : String)
    (hkeep : pyStrip s ≠ "") (hlong : strLen s > 2000) :
    build_rich_text (.elem oid "p" [] [.text s]) = [⟨strTake s 2000, none, none⟩] := by
  have hs : s ≠ "" := by
    intro h
    subst h
    exact hkeep rfl
  have hparts0 : processNode false noAnn (.elem oid "p" [] [.text s]) =
      (if s = "" then [] else [⟨s, none, noAnn⟩]) ++ [] := rfl
  have hparts : processNode false noAnn (.elem oid "p" [] [.text s]) =
      [⟨s, none, noAnn⟩] := by
    rw [hparts0, if_neg hs, List.append_nil]
  have hkeepb : (pyStrip s != "") = true := by
    simpa using hkeep
  simp [build_rich_text, hparts, hkeepb, truncatePart, hlong]

/-- A 5000-character text run. -/
def longRun : String := String.mk (List.replicate 5000 'a')

theorem toList_mk (l : List Char) : (String.mk l).toList = l := rfl

theorem longRun_strLen : strLen longRun = 5000 := by
  show (String.mk (List.replicate 5000 'a')).toList.length = 5000
  rw [toList_mk, List.length_replicate]

theorem longRun_keep : pyStrip longRun ≠ "" := by
  refine pyStrip_ne_empty longRun 'a' ?_ (by decide)
  show 'a' ∈ (String.mk (List.replicate 5000 'a')).toList
  rw [toList_mk]
  exact List.mem_replicate.mpr ⟨by norm_num, rfl⟩

/-- C1, counterexample: the claim says a single 5000-character text run
yields exactly 3 spans of lengths 2000/2000/1000 with no content dropped.
`build_rich_text` instead TRUNCATES the span at 2000 characters
(html_parser.py lines 311-314): the run yields exactly one span holding only
the first 2000 characters; the remaining 3000 characters are dropped. -/
theorem C1_counterexample :
    build_rich_text (.elem 0 "p" [] [.text longRun]) =
      [⟨String.mk (List.replicate 2000 'a'), none, none⟩] ∧
    (build_rich_text (.elem 0 "p" [] [.text longRun])).length = 1 ∧
    strLen longRun = 5000 := by
  have h2 : strLen longRun > 2000 := by
    rw [longRun_strLen]
    norm_num
  have h3 := build_rich_text_p_long 0 longRun longRun_keep h2
  have htake : strTake longRun 2000 = String.mk (List.replicate 2000 'a') := by
    show String.mk ((String.mk (List.replicate 5000 'a')).toList.take 2000) = _
    rw [toList_mk, List.take_replicate]
    norm_num
  refine ⟨?_, ?_, longRun_strLen⟩
  · rw [h3, htake]
  · rw [h3]
    rfl

theorem chunkListFuel_flatten : ∀ (fuel : Nat) (l : List Char),
    (chunkListFuel fuel l).flatten = l := by
  intro fuel
  induction fuel with
  | zero => intro l; simp [chunkListFuel]
  | succ f ih =>
    intro l
    by_cases h : l.length ≤ 2000
    · simp [chunkListFuel, h]
    · simp [chunkListFuel, h, ih]

theorem chunkListFuel_step (f : Nat) (l : List Char) (h : ¬ l.length ≤ 2000) :
    chunkListFuel (f + 1) l = l.take 2000 :: chunkListFuel f (l.drop 2000) := by
  rw [chunkListFuel, if_neg h]

theorem chunkListFuel_stop (f : Nat) (l : List Char) (h : l.length ≤ 2000) :
    chunkListFuel (f + 1) l = [l] := by
  rw [chunkListFuel, if_pos h]

theorem chunkListFuel_le : ∀ (fuel : Nat) (l : List Char), l.length ≤ fuel →
    ∀ c ∈ chunkListFuel fuel l, c.length ≤ 2000 := by
  intro fuel
  induction fuel with
  | zero =>
    intro l hl c hc
    have hnil : l = [] := List.length_eq_zero.mp (Nat.le_zero.mp hl)
    subst hnil
    simp only [chunkListFuel, List.mem_singleton] at hc
    subst hc
    simp
  | succ f ih =>
    intro l hl c hc
    by_cases h : l.length ≤ 2000
    · rw [chunkListFuel_stop f l h] at hc
      rcases List.mem_singleton.mp hc with rfl
      exact h
    · rw [chunkListFuel_step f l h] at hc
      rcases List.mem_cons.mp hc with heq | hcm
      · subst heq
        simp [List.length_take]
      · refine ih (l.drop 2000) ?_ c hcm
        simp only [List.length_drop]
        omega

/-- The chunk split of `_validate_blocks` on an over-limit span: every chunk
is at most 2000 characters, carries the original link but NO annotations,
and the chunks concatenate back to the original content (nothing dropped at
this stage). -/
theorem validateSpan_long (rt : RichSpan) (h : strLen rt.content > 2000) :
    ((validateSpan rt).map (fun c => c.content.toList)).flatten = rt.content.toList ∧
    ∀ c ∈ validateSpan rt, strLen c.content ≤ 2000 ∧ c.link = rt.link ∧
      c.annotations = none := by
  unfold validateSpan
  rw [if_pos h]
  constructor
  · rw [List.map_map]
    have hcomp : ((fun (c : RichSpan) => c.content.toList) ∘
        fun chunk => (⟨String.mk chunk, rt.link, none⟩ : RichSpan)) = id := by
      funext chunk
      rfl
    rw [hcomp, List.map_id]
    exact chunkListFuel_flatten _ _
  · intro c hc
    rcases List.mem_map.mp hc with ⟨chunk, hchunk, rfl⟩
    refine ⟨?_, rfl, rfl⟩
    have := chunkListFuel_le rt.content.toList.length rt.content.toList le_rfl chunk hchunk
    simpa [strLen] using this

/-- Chunking the 5000-character run gives chunks of 2000, 2000 and 1000. -/
theorem chunkList_longRun :
    chunkList (List.replicate 5000 'a') =
      [List.replicate 2000 'a', List.replicate 2000 'a', List.replicate 1000 'a'] := by
  show chunkListFuel (List.replicate 5000 'a').length (List.replicate 5000 'a') = _
  rw [List.length_replicate]
  have e1 : chunkListFuel 5000 (List.replicate 5000 'a') =
      (List.replicate 5000 'a').take 2000 ::
        chunkListFuel 4999 ((List.replicate 5000 'a').drop 2000) :=
    chunkListFuel_step 4999 _ (by rw [List.length_replicate]; norm_num)
  have e2 : chunkListFuel 4999 (List.replicate 3000 'a') =
      (List.replicate 3000 'a').take 2000 ::
        chunkListFuel 4998 ((List.replicate 3000 'a').drop 2000) :=
    chunkListFuel_step 4998 _ (by rw [List.length_replicate]; norm_num)
  have e3 : chunkListFuel 4998 (List.replicate 1000 'a') = [List.replicate 1000 'a'] :=
    chunkListFuel_stop 4997 _ (by rw [List.length_replicate]; norm_num)
  rw [e1, List.take_replicate, List.drop_replicate]
  norm_num
  rw [e2, List.take_replicate, List.drop_replicate]
  norm_num
  rw [e3]

/-- C1, amended: `build_rich_text` keeps every emitted span at ≤ 2000
characters, but an over-limit run is truncated to its first 2000 characters
with the rest dropped — a 5000-character run yields ONE span of 2000
characters, not three. Only the downstream `_validate_blocks` splits a span
still exceeding 2000 characters into 2000-character chunks at the limit
boundary with nothing dropped, and those chunks carry the original link but
NOT the original annotation set (the chunk spans are rebuilt without the
annotations key). -/
theorem C1_amended :
    (∀ (node : HNode) (ex : Bool), ∀ sp ∈ build_rich_text node ex,
      strLen sp.content ≤ 2000) ∧
    build_rich_text (.elem 0 "p" [] [.text longRun]) =
      [⟨String.mk (List.replicate 2000 'a'), none, none⟩] ∧
    (∀ rt : RichSpan, strLen rt.content > 2000 →
      ((validateSpan rt).map (fun c => c.content.toList)).flatten = rt.content.toList ∧
      ∀ c ∈ validateSpan rt, strLen c.content ≤ 2000 ∧ c.link = rt.link ∧
        c.annotations = none) ∧
    (validateSpan ⟨longRun, none, some ⟨true, false, false, false, false⟩⟩).map
      (fun c => (strLen c.content, c.annotations)) =
      [(2000, none), (2000, none), (1000, none)] := by
  refine ⟨build_rich_text_span_le, ?_, validateSpan_long, ?_⟩
  · have h2 : strLen longRun > 2000 := by
      rw [longRun_strLen]
      norm_num
    have h3 := build_rich_text_p_long 0 longRun longRun_keep h2
    have htake : strTake longRun 2000 = String.mk (List.replicate 2000 'a') := by
      show String.mk ((String.mk (List.replicate 5000 'a')).toList.take 2000) = _
      rw [toList_mk, List.take_replicate]
      norm_num
    rw [h3, htake]
  · have h2 : strLen (⟨longRun, none, some ⟨true, false, false, false, false⟩⟩ :
        RichSpan).content > 2000 := by
      show strLen longRun > 2000
      rw [longRun_strLen]
      norm_num
    unfold validateSpan
    rw [if_pos h2]
    have hco : (⟨longRun, none, some ⟨true, false, false, false, false⟩⟩ :
        RichSpan).content.toList = List.replicate 5000 'a' := rfl
    rw [hco, chunkList_longRun]
    simp only [List.map_map, List.map_cons, List.map_nil, Function.comp_apply,
      strLen, toList_mk, List.length_replicate]

/-- Witness for the hypothesis of `C1_amended`: a 2001-character span is
split by `_validate_blocks`. -/
theorem C1_amended_witness :
    ((validateSpan ⟨String.mk (List.replicate 2001 'a'), none, none⟩).map
      (fun c => c.content.toList)).flatten =
      (String.mk (List.replicate 2001 'a') : String).toList ∧
    ∀ c ∈ validateSpan ⟨String.mk (List.replicate 2001 'a'), none, none⟩,
      strLen c.content ≤ 2000 ∧ c.link = (none : Option String) ∧
        c.annotations = none :=
  C1_amended.2.2.1 ⟨String.mk (List.replicate 2001 'a'), none, none⟩
    (by show (String.mk (List.replicate 2001 'a')).toList.length > 2000
        rw [toList_mk, List.length_replicate]
        norm_num)

/-! ## Claim C6 (corrected) -/

theorem strAppend_toList (s t : String) : (s ++ t).toList = s.toList ++ t.toList := rfl

theorem truncatePart_link (p : Part) : (truncatePart p).link = p.link := by
  unfold truncatePart
  split <;> rfl

theorem truncatePart_ann (p : Part) : (truncatePart p).annotations = p.annotations := by
  unfold truncatePart
  split <;> rfl

/-- An internal link is never the empty href. -/
theorem internal_ne_empty (href : String) (h : is_onenote_internal_link href = true) :
    href ≠ "" := by
  intro he
  subst he
  exact absurd h (by decide)

/-- `process_node` on an anchor element with a non-empty href and non-empty
flattened text emits exactly one part: the text with the
`process_onenote_link` suffix, linked to the unchanged href, under the
element's computed annotation set; the anchor's children are not recursed
into. -/
theorem processNode_anchor (ex : Bool) (ann : Annotations) (oid : Nat)
    (attrs : List (String × String)) (cs : List HNode) (href : String)
    (hhref : getAttr attrs "href" = some href) (hne : href ≠ "")
    (htxt : joinAll (textStringsList cs) ≠ "") :
    ∃ a2, processNode ex ann (.elem oid "a" attrs cs) =
      [⟨joinAll (textStringsList cs) ++ (process_onenote_link href).2,
        some (process_onenote_link href).1, a2⟩] := by
  simp only [processNode, hhref,
    show (lowerStr "a" == "ul" || lowerStr "a" == "ol") = false from rfl,
    show (lowerStr "a" == "strong" || lowerStr "a" == "b") = false from rfl,
    show (lowerStr "a" == "em" || lowerStr "a" == "i") = false from rfl,
    show (lowerStr "a" == "u") = false from rfl,
    show ((lowerStr "a" == "strike" || lowerStr "a" == "s") ||
      lowerStr "a" == "del") = false from rfl,
    show (lowerStr "a" == "code") = false from rfl,
    show (lowerStr "a" == "a") = true from rfl,
    Bool.and_false, Bool.false_eq_true, if_false, if_true]
  rw [if_pos hne, if_pos htxt]
  exact ⟨_, rfl⟩

/-- As `processNode_anchor`, for an anchor with no style attribute: the
emitted span carries exactly the inherited annotation set. -/
theorem processNode_anchor_nostyle (ex : Bool) (ann : Annotations) (oid : Nat)
    (attrs : List (String × String)) (cs : List HNode) (href : String)
    (hhref : getAttr attrs "href" = some href) (hne : href ≠ "")
    (hstyle : getAttr attrs "style" = none)
    (htxt : joinAll (textStringsList cs) ≠ "") :
    processNode ex ann (.elem oid "a" attrs cs) =
      [⟨joinAll (textStringsList cs) ++ (process_onenote_link href).2,
        some (process_onenote_link href).1, ann⟩] := by
  simp only [processNode, hhref, hstyle,
    show (lowerStr "a" == "ul" || lowerStr "a" == "ol") = false from rfl,
    show (lowerStr "a" == "strong" || lowerStr "a" == "b") = false from rfl,
    show (lowerStr "a" == "em" || lowerStr "a" == "i") = false from rfl,
    show (lowerStr "a" == "u") = false from rfl,
    show ((lowerStr "a" == "strike" || lowerStr "a" == "s") ||
      lowerStr "a" == "del") = false from rfl,
    show (lowerStr "a" == "code") = false from rfl,
    show (lowerStr "a" == "a") = true from rfl,
    Bool.and_false, Bool.false_eq_true, if_false, if_true]
  rw [if_pos hne, if_pos htxt]

/-- `build_rich_text` when the walk produced exactly one part surviving the
whitespace filter: truncate it and convert the annotation record. -/
theorem build_rich_text_single_part (node : HNode) (p : Part)
    (hpn : processNode false noAnn node = [p])
    (hkeep : pyStrip p.content ≠ "") :
    build_rich_text node =
      [⟨(truncatePart p).content, p.link,
        if p.annotations = noAnn then none else some p.annotations⟩] := by
  have hkeepb : (pyStrip p.content != "") = true := by
    simpa using hkeep
  simp only [build_rich_text, hpn, List.filter_cons, hkeepb, if_pos,
    List.filter_nil, List.map_cons, List.map_nil, truncatePart_link, truncatePart_ann]

/-- The marker contains the non-whitespace character `V`, so a span ending
in the marker always survives the whitespace filter. -/
theorem marker_keep (s : String) :
    pyStrip (s ++ INCOMPLETE_LINK_MARKER) ≠ "" := by
  apply pyStrip_ne_empty _ 'V'
  · rw [strAppend_toList]
    refine List.mem_append_right _ ?_
    decide
  · decide

/-- C6, amended: for an anchor whose href is internal, whose flattened text
is non-empty, and whose text-plus-marker fits in the 2000-character span
limit, the rich-text builder emits a single span: the flattened text
suffixed with the incomplete-link marker, linked to the original href
character for character. (An internal anchor with EMPTY flattened text
emits no span at all, and when text+marker exceeds 2000 characters the
content is truncated, which cuts the marker off — see the counterexample.)
Anchors whose href is not internal receive no suffix. -/
theorem C6_amended (oid : Nat) (attrs : List (String × String)) (cs : List HNode)
    (href : String)
    (hhref : getAttr attrs "href" = some href)
    (hint : is_onenote_internal_link href = true)
    (htxt : joinAll (textStringsList cs) ≠ "")
    (hlen : strLen (joinAll (textStringsList cs) ++ INCOMPLETE_LINK_MARKER) ≤ 2000) :
    (∃ ann, build_rich_text (.elem oid "a" attrs cs) =
      [⟨joinAll (textStringsList cs) ++ INCOMPLETE_LINK_MARKER, some href, ann⟩]) ∧
    (∀ (oid2 : Nat) (attrs2 : List (String × String)) (cs2 : List HNode)
      (href2 : String),
      getAttr attrs2 "href" = some href2 →
      is_onenote_internal_link href2 = false → href2 ≠ "" →
      joinAll (textStringsList cs2) ≠ "" →
      pyStrip (joinAll (textStringsList cs2)) ≠ "" →
      strLen (joinAll (textStringsList cs2)) ≤ 2000 →
      ∃ ann, build_rich_text (.elem oid2 "a" attrs2 cs2) =
        [⟨joinAll (textStringsList cs2), some href2, ann⟩]) := by
  constructor
  · have hne : href ≠ "" := internal_ne_empty href hint
    have hpol : process_onenote_link href = (href, INCOMPLETE_LINK_MARKER) := by
      simp [process_onenote_link, hint]
    obtain ⟨a2, hpn⟩ := processNode_anchor false noAnn oid attrs cs href hhref hne htxt
    rw [hpol] at hpn
    have hb := build_rich_text_single_part _ _ hpn (marker_keep _)
    refine ⟨if a2 = noAnn then none else some a2, ?_⟩
    rw [hb]
    have htc : (truncatePart ⟨joinAll (textStringsList cs) ++ INCOMPLETE_LINK_MARKER,
        some href, a2⟩).content =
        joinAll (textStringsList cs) ++ INCOMPLETE_LINK_MARKER := by
      unfold truncatePart
      rw [if_neg (by simp only []; omega)]
    rw [htc]
  · intro oid2 attrs2 cs2 href2 hhref2 hint2 hne2 htxt2 hkeep2 hlen2
    have hpol : process_onenote_link href2 = (href2, "") := by
      simp [process_onenote_link, hint2]
    obtain ⟨a2, hpn⟩ := processNode_anchor false noAnn oid2 attrs2 cs2 href2
      hhref2 hne2 htxt2
    rw [hpol] at hpn
    simp only [String.append_empty] at hpn
    have hb := build_rich_text_single_part _ _ hpn hkeep2
    refine ⟨if a2 = noAnn then none else some a2, ?_⟩
    rw [hb]
    have htc : (truncatePart ⟨joinAll (textStringsList cs2), some href2, a2⟩).content =
        joinAll (textStringsList cs2) := by
      unfold truncatePart
      rw [if_neg (by simp only []; omega)]
    rw [htc]

/-- Witness for the hypotheses of `C6_amended`. -/
theorem C6_amended_witness :
    ∃ ann, build_rich_text (.elem 0 "a" [("href", "onenote:s#page-id=7")] [.text "See"]) =
      [⟨joinAll (textStringsList [.text "See"]) ++ INCOMPLETE_LINK_MARKER,
        some "onenote:s#page-id=7", ann⟩] :=
  (C6_amended 0 [("href", "onenote:s#page-id=7")] [.text "See"] "onenote:s#page-id=7"
    rfl (by decide) (by decide) (by decide)).1

/-- An internal-linked anchor with no text at all. -/
def c6anchor : HNode := .elem 0 "a" [("href", "onenote:sec#page-id=77")] []

/-- An internal-linked anchor whose flattened text alone already fills the
2000-character span limit. -/
def longAnchor : HNode :=
  .elem 0 "a" [("href", "onenote:sec#page-id=77")]
    [.text (String.mk (List.replicate 2000 'a'))]

theorem mkRep_ne (n : Nat) (hn : n ≠ 0) (c : Char) :
    String.mk (List.replicate n c) ≠ "" := by
  intro h
  have h2 := congrArg (fun s => s.toList.length) h
  simp only [toList_mk, List.length_replicate] at h2
  exact hn h2

/-- C6, counterexample: the claim quantifies over EVERY anchor with an
internal href. (i) An internal anchor with empty flattened text emits no
marked span at all — only the fallback empty unlinked span. (ii) An
internal anchor whose text occupies the whole 2000-character limit emits a
span holding just the text: the appended marker is cut off by the
truncation, so the content is NOT text-plus-marker. -/
theorem C6_counterexample :
    is_onenote_internal_link "onenote:sec#page-id=77" = true ∧
    build_rich_text c6anchor = [⟨"", none, none⟩] ∧
    (¬ ∃ sp : RichSpan, build_rich_text c6anchor = [sp] ∧
      sp.content = get_text c6anchor ++ INCOMPLETE_LINK_MARKER ∧
      sp.link = some "onenote:sec#page-id=77") ∧
    build_rich_text longAnchor =
      [⟨String.mk (List.replicate 2000 'a'), some "onenote:sec#page-id=77", none⟩] ∧
    String.mk (List.replicate 2000 'a') ≠
      get_text longAnchor ++ INCOMPLETE_LINK_MARKER := by
  refine ⟨by decide, by rfl, ?_, ?_, ?_⟩
  · rintro ⟨sp, h1, h2, h3⟩
    rw [show build_rich_text c6anchor = [⟨"", none, none⟩] from rfl] at h1
    have hsp : (⟨"", none, none⟩ : RichSpan) = sp := by
      injection h1
    rw [← hsp] at h3
    simp at h3
  · have htxt : joinAll (textStringsList longAnchor.childrenOf) ≠ "" := by
      show String.mk (List.replicate 2000 'a') ≠ ""
      exact mkRep_ne 2000 (by norm_num) 'a'
    have hpn := processNode_anchor_nostyle false noAnn 0
      [("href", "onenote:sec#page-id=77")]
      [.text (String.mk (List.replicate 2000 'a'))]
      "onenote:sec#page-id=77" rfl (by decide) rfl htxt
    have hpol : process_onenote_link "onenote:sec#page-id=77" =
        ("onenote:sec#page-id=77", INCOMPLETE_LINK_MARKER) := by
      simp [process_onenote_link]
      decide
    rw [hpol] at hpn
    have hsj : joinAll (textStringsList
        [HNode.text (String.mk (List.replicate 2000 'a'))]) =
        String.mk (List.replicate 2000 'a') := rfl
    rw [hsj] at hpn
    have hb := build_rich_text_single_part longAnchor _ hpn (marker_keep _)
    rw [hb]
    have hlong : strLen (String.mk (List.replicate 2000 'a') ++
        INCOMPLETE_LINK_MARKER) > 2000 := by
      show ((String.mk (List.replicate 2000 'a') ++ INCOMPLETE_LINK_MARKER)).toList.length > 2000
      rw [strAppend_toList, List.length_append, toList_mk, List.length_replicate]
      have : INCOMPLETE_LINK_MARKER.toList.length = 27 := by decide
      omega
    have htc : (truncatePart ⟨String.mk (List.replicate 2000 'a') ++
        INCOMPLETE_LINK_MARKER, some "onenote:sec#page-id=77", noAnn⟩).content =
        String.mk (List.replicate 2000 'a') := by
      unfold truncatePart
      rw [if_pos hlong]
      show String.mk (((String.mk (List.replicate 2000 'a') ++
        INCOMPLETE_LINK_MARKER)).toList.take 2000) = _
      rw [strAppend_toList, toList_mk]
      rw [List.take_left' (by rw [List.length_replicate])]
    rw [htc]
    rfl
  · intro h
    have h2 := congrArg (fun s => s.toList.length) h
    simp only [toList_mk, List.length_replicate, strAppend_toList,
      List.length_append] at h2
    have : INCOMPLETE_LINK_MARKER.toList.length = 27 := by decide
    have hg : (get_text longAnchor).toList.length = 2000 := by
      show (String.mk (List.replicate 2000 'a')).toList.length = 2000
      rw [toList_mk, List.length_replicate]
    omega

/-! ## Claim C2 (confirmed) -/

/-- A minimal heading element, used to build a 200-block document. -/
def h1x : HNode := .elem 0 "h1" [] [.text "x"]

theorem convertStep_h1 (net : Network) (siteId pt : String) (st : ConvState) :
    convertStep net siteId pt h1x st =
      { st with blocks := st.blocks ++ [headingBlock 1 (build_rich_text h1x)] } := rfl

/-- Each `h1` element contributes exactly one raw block in the main walk. -/
theorem fold_doc_h1 (net : Network) (siteId : String) :
    ∀ (n : Nat) (st : ConvState),
      ((descWithParent "body" (List.replicate n h1x)).foldl
        (fun st pe => convertStep net siteId pe.1 pe.2 st) st).blocks.length =
      st.blocks.length + n := by
  intro n
  induction n with
  | zero => intro st; rfl
  | succ k ih =>
    intro st
    have step : ((descWithParent "body" (List.replicate (k + 1) h1x)).foldl
        (fun st pe => convertStep net siteId pe.1 pe.2 st) st) =
        ((descWithParent "body" (List.replicate k h1x)).foldl
          (fun st pe => convertStep net siteId pe.1 pe.2 st)
          { st with blocks := st.blocks ++ [headingBlock 1 (build_rich_text h1x)] }) := rfl
    rw [step, ih]
    simp only [List.length_append, List.length_singleton]
    omega

/-- A document whose conversion produces exactly 200 raw blocks. -/
def doc200 : List HNode := List.replicate 200 h1x

theorem raw_doc200_length (net : Network) (siteId : String) :
    (html_to_blocks_and_tables_raw net siteId doc200).blocks.length = 200 := by
  have h : ((descWithParent "body" doc200).foldl
      (fun st pe => convertStep net siteId pe.1 pe.2 st)
      ConvState.initial).blocks.length = 200 := by
    simpa using fold_doc_h1 net siteId 200 ConvState.initial
  have hne : ((descWithParent "body" doc200).foldl
      (fun st pe => convertStep net siteId pe.1 pe.2 st)
      ConvState.initial).blocks.isEmpty = false := by
    cases hb : ((descWithParent "body" doc200).foldl
        (fun st pe => convertStep net siteId pe.1 pe.2 st)
        ConvState.initial).blocks with
    | nil =>
      rw [hb] at h
      simp at h
    | cons a l => rfl
  have hr : html_to_blocks_and_tables_raw net siteId doc200 =
      (descWithParent "body" doc200).foldl
        (fun st pe => convertStep net siteId pe.1 pe.2 st) ConvState.initial := by
    simp only [html_to_blocks_and_tables_raw, hne, Bool.false_and, Bool.false_eq_true,
      if_false]
  rw [hr]
  exact h

/-- C2: for every document, the converter returns at most 150 top-level
blocks, and the returned list is exactly the first 150 raw blocks in
document order (`blocks[:150]` — a hard cap, not an error). A concrete
document producing 200 raw blocks is cut to exactly its first 150 blocks. -/
theorem C2 :
    (∀ (net : Network) (siteId : String) (body : List HNode),
      (html_to_blocks_and_tables net siteId body).1.length ≤ 150 ∧
      (html_to_blocks_and_tables net siteId body).1 =
        (html_to_blocks_and_tables_raw net siteId body).blocks.take 150) ∧
    (html_to_blocks_and_tables_raw inertNet "site" doc200).blocks.length = 200 ∧
    (html_to_blocks_and_tables inertNet "site" doc200).1 =
      (html_to_blocks_and_tables_raw inertNet "site" doc200).blocks.take 150 ∧
    (html_to_blocks_and_tables inertNet "site" doc200).1.length = 150 := by
  have hgen : ∀ (net : Network) (siteId : String) (body : List HNode),
      (html_to_blocks_and_tables net siteId body).1.length ≤ 150 ∧
      (html_to_blocks_and_tables net siteId body).1 =
        (html_to_blocks_and_tables_raw net siteId body).blocks.take 150 := by
    intro net siteId body
    constructor
    · show ((html_to_blocks_and_tables_raw net siteId body).blocks.take 150).length ≤ 150
      rw [List.length_take]
      omega
    · rfl
  refine ⟨hgen, raw_doc200_length _ _, (hgen inertNet "site" doc200).2, ?_⟩
  rw [(hgen inertNet "site" doc200).2, List.length_take,
    raw_doc200_length inertNet "site"]
  norm_num

/-! ## Claim C7 (corrected) -/

/-- A network with fixed fetch/upload results, for observing call counts. -/
def c7net : Network :=
  ⟨fun _ => some ⟨"B", "image/png", "a.png"⟩, fun _ _ _ => some "up1"⟩

/-- A document with two distinct `<img>` elements referencing the SAME
source URL. -/
def c7doc : List HNode :=
  [.elem 1 "img" [("src", "http://x/a.png")] [],
   .elem 2 "img" [("src", "http://x/a.png")] []]

/-- C7, counterexample: within one document conversion, two `<img>`
references to the same source URL produce TWO fetch calls and TWO upload
calls — the converter de-duplicates by element identity (`id(el)`), not per
URL, so the claimed per-URL memoization does not hold for the document
converter. -/
theorem C7_counterexample :
    (html_to_blocks_and_tables_raw c7net "s" c7doc).fetchLog =
      ["http://x/a.png", "http://x/a.png"] ∧
    (html_to_blocks_and_tables_raw c7net "s" c7doc).uploadLog = ["a.png", "a.png"] ∧
    (html_to_blocks_and_tables_raw c7net "s" c7doc).blocks =
      [imageBlock "up1", imageBlock "up1"] :=
  ⟨by decide, by decide, by rfl⟩

theorem lookupMapping_append (m : List (String × String)) (k v : String)
    (h : lookupMapping m k = none) : lookupMapping (m ++ [(k, v)]) k = some v := by
  induction m with
  | nil => simp [lookupMapping]
  | cons p rest ih =>
    by_cases hp : p.1 == k
    · exfalso
      simp [lookupMapping, List.find?, hp] at h
    · simp only [lookupMapping, List.cons_append, List.find?, hp] at h ⊢
      exact ih h

/-- C7, amended: per-URL memoization lives in
`ResourceHandler.process_image` (which the active document converter does
NOT invoke — the converter de-duplicates only by element identity): two
successive `process_image` calls for the same URL perform exactly one
download and one upload, and both returned image blocks carry the same
resolved URL. -/
theorem C7_amended (downloadFn uploadFn : String → Option String)
    (url localPath notionUrl : String) (st0 : RHState)
    (hcache : lookupMapping st0.cache url = none)
    (hdl : downloadFn url = some localPath)
    (hup : uploadFn localPath = some notionUrl) :
    (ResourceHandler.process_image downloadFn uploadFn url st0).1 =
      some (imageBlock notionUrl) ∧
    (ResourceHandler.process_image downloadFn uploadFn url
      (ResourceHandler.process_image downloadFn uploadFn url st0).2).1 =
      some (imageBlock notionUrl) ∧
    (ResourceHandler.process_image downloadFn uploadFn url
      (ResourceHandler.process_image downloadFn uploadFn url st0).2).2.downloadLog =
      st0.downloadLog ++ [url] ∧
    (ResourceHandler.process_image downloadFn uploadFn url
      (ResourceHandler.process_image downloadFn uploadFn url st0).2).2.uploadLog =
      st0.uploadLog ++ [localPath] := by
  have h1 : ResourceHandler.process_image downloadFn uploadFn url st0 =
      (some (imageBlock notionUrl),
       ⟨st0.cache ++ [(url, notionUrl)], st0.downloadLog ++ [url],
        st0.uploadLog ++ [localPath]⟩) := by
    simp [ResourceHandler.process_image, hcache, hdl, hup]
  have h2 : lookupMapping (st0.cache ++ [(url, notionUrl)]) url = some notionUrl :=
    lookupMapping_append st0.cache url notionUrl hcache
  rw [h1]
  have h3 : ResourceHandler.process_image downloadFn uploadFn url
      ⟨st0.cache ++ [(url, notionUrl)], st0.downloadLog ++ [url],
       st0.uploadLog ++ [localPath]⟩ =
      (some (imageBlock notionUrl),
       ⟨st0.cache ++ [(url, notionUrl)], st0.downloadLog ++ [url],
        st0.uploadLog ++ [localPath]⟩) := by
    simp [ResourceHandler.process_image, h2]
  rw [h3]
  exact ⟨rfl, rfl, rfl, rfl⟩

/-- Witness for the hypotheses of `C7_amended`. -/
theorem C7_amended_witness :
    (ResourceHandler.process_image (fun _ => some "local.png")
      (fun _ => some "notion-url-1") "http://x/i.png" ⟨[], [], []⟩).1 =
      some (imageBlock "notion-url-1") ∧
    (ResourceHandler.process_image (fun _ => some "local.png")
      (fun _ => some "notion-url-1") "http://x/i.png"
      (ResourceHandler.process_image (fun _ => some "local.png")
        (fun _ => some "notion-url-1") "http://x/i.png" ⟨[], [], []⟩).2).1 =
      some (imageBlock "notion-url-1") ∧
    (ResourceHandler.process_image (fun _ => some "local.png")
      (fun _ => some "notion-url-1") "http://x/i.png"
      (ResourceHandler.process_image (fun _ => some "local.png")
        (fun _ => some "notion-url-1") "http://x/i.png" ⟨[], [], []⟩).2).2.downloadLog =
      ([] : List String) ++ ["http://x/i.png"] ∧
    (ResourceHandler.process_image (fun _ => some "local.png")
      (fun _ => some "notion-url-1") "http://x/i.png"
      (ResourceHandler.process_image (fun _ => some "local.png")
        (fun _ => some "notion-url-1") "http://x/i.png" ⟨[], [], []⟩).2).2.uploadLog =
      ([] : List String) ++ ["local.png"] :=
  C7_amended (fun _ => some "local.png") (fun _ => some "notion-url-1")
    "http://x/i.png" "local.png" "notion-url-1" ⟨[], [], []⟩ rfl rfl rfl

end Move2Notion

namespace Move2NotionChecks

open Move2Notion

example : extract_page_id_from_link "onenote:https://x#page-id=\x7bABC-123\x7d&end" =
    some "ABC-123" := by decide

example : parse_style_annotations "font-weight:750" =
    ⟨false, false, false, false, false⟩ := by decide

example : parse_style_annotations "FONT-WEIGHT:700" =
    ⟨true, false, false, false, false⟩ := by decide

example : build_rich_text (.elem 0 "p" [] [.text "hi ", .elem 1 "b" [] [.text "bold"]]) =
    [⟨"hi ", none, none⟩, ⟨"bold", none, some ⟨true, false, false, false, false⟩⟩] := by
  decide

example : build_rich_text (.elem 0 "a" [("href", "onenote:ref#page-id=1a")] [.text "X"]) =
    [⟨"X (Verlinkung unvollständig)", some "onenote:ref#page-id=1a", none⟩] := by
  decide

end Move2NotionChecks
